import Mathlib

/-!
Verification development for the Ditto event relay pipeline.

The definitions below are a shallow embedding of the TypeScript sources:
  - src/pipeline.ts   (event pipeline: handleEvent and its helpers; the file
    holds two revisions of the module, the later revision is embedded)
  - src/stats.ts      (stats engine: updateStats, getFollowDiff, ...)
  - src/subs.ts       (SubscriptionStore)
Machine integers are modelled as Nat / Int, JavaScript `undefined` for a
missing tag value as Option, and thrown exceptions as Except / Option error
results.  External modules that are not part of the sources are modelled from
the specification and are marked as such in their doc comments.
-/

/-- A Nostr event as carried through the pipeline: id (content hash), pubkey,
kind, created_at (unix seconds), ordered tag list, content and signature. -/
structure Event where
  id : String
  pubkey : String
  kind : Nat
  created_at : Nat
  tags : List (List String)
  content : String
  sig : String
deriving DecidableEq, Repr

/-- Association list lookup (models Map.get / a row lookup by unique key). -/
def alGet {κ α : Type} [DecidableEq κ] : List (κ × α) → κ → Option α
  | [], _ => none
  | p :: t, k => if p.1 = k then some p.2 else alGet t k

/-- Association list update-or-append (models Map.set / an SQL upsert target).
An existing key keeps its position; a new key is appended. -/
def alSet {κ α : Type} [DecidableEq κ] : List (κ × α) → κ → α → List (κ × α)
  | [], k, v => [(k, v)]
  | p :: t, k, v => if p.1 = k then (k, v) :: t else p :: alSet t k v

/-- Association list deletion (models Map.delete). -/
def alDel {κ α : Type} [DecidableEq κ] (l : List (κ × α)) (k : κ) : List (κ × α) :=
  l.filter fun p => ¬ (p.1 = k)

/-- JavaScript string truthiness for an optional tag value: `undefined` and the
empty string are falsy, so guards of the form `if (x)` drop both. -/
def truthy (s : Option String) : Option String :=
  match s with
  | some "" => none
  | x => x

namespace Subs

/-!
Embedding of src/subs.ts (SubscriptionStore).  The Subscription class itself
(src/subscription.ts) is not among the sources; a subscription is modelled as
an opaque token (a Nat), `new Subscription(filters)` as drawing a fresh token,
and `sub.close()` as recording the token in a closed set.  Whether a given
subscription matches an event (sub.matches) is supplied as a predicate on
tokens by the caller of `matches`.
-/

/-- State of the SubscriptionStore: the two-level map
connection socket -> (subscription id -> subscription), the set of
subscriptions that have been closed, and the next fresh token. -/
structure Store where
  store : List (Nat × List (String × Nat))
  closed : List Nat
  nextToken : Nat
deriving DecidableEq, Repr

/-- Remove a subscription from the store: close the subscription registered
under the id on that socket, if any, then delete the map entry. -/
def unsub (st : Store) (socket : Nat) (id : String) : Store :=
  match alGet st.store socket with
  | none => st
  | some subs =>
    let closed := match alGet subs id with
      | some tok => tok :: st.closed
      | none => st.closed
    { st with closed := closed, store := alSet st.store socket (alDel subs id) }

/-- Add a subscription to the store: ensure the socket has a map, create the
new subscription, close and remove any prior subscription under the same id,
then register the new one.  Returns the new store and the handle. -/
def sub (st : Store) (socket : Nat) (id : String) : Store × Nat :=
  let st1 := if (alGet st.store socket).isSome then st
             else { st with store := alSet st.store socket [] }
  let tok := st1.nextToken
  let st2 := { st1 with nextToken := tok + 1 }
  let st3 := unsub st2 socket id
  let st4 := { st3 with
    store := alSet st3.store socket (alSet ((alGet st3.store socket).getD []) id tok) }
  (st4, tok)

/-- Remove an entire socket: close every subscription it owns, then drop it. -/
def close (st : Store) (socket : Nat) : Store :=
  match alGet st.store socket with
  | none => { st with store := alDel st.store socket }
  | some subs =>
    { st with closed := (subs.map (·.2)) ++ st.closed, store := alDel st.store socket }

/-- All subscription tokens currently registered in the store. -/
def allTokens (st : Store) : List Nat :=
  st.store.flatMap fun p => p.2.map (·.2)

/-- Loop through matching subscriptions to stream out: every registered
subscription whose match predicate (sub.matches(event, data)) holds.  The
predicate stands for the filter test of the external Subscription class.
This embeds SubscriptionStore.matches; the word matches is reserved in Lean,
hence the name. -/
def matchesAll (st : Store) (mp : Nat → Bool) : List Nat :=
  st.store.flatMap fun p => (p.2.map (·.2)).filter mp

end Subs

namespace Stats

/-!
Embedding of src/stats.ts (stats engine).  The relational tables author_stats
and event_stats are modelled as association lists keyed by the unique column,
the kysely insert-on-conflict queries as functions on the tables, and
`updateStats` as an Except computation (the JavaScript TypeError thrown by
dereferencing a field of `undefined` becomes an error result).  A tag value
read as `tag[1]` may be `undefined` in JavaScript, so tag values coming out of
the p-tag sets are `Option String`.
-/

/-- Row of author_stats.  The pubkey key is kept outside the row. -/
structure AuthorStatsRow where
  followers_count : Int
  following_count : Int
  notes_count : Int
deriving DecidableEq, Repr

/-- Row of event_stats.  The event_id key is kept outside the row. -/
structure EventStatsRow where
  replies_count : Int
  reposts_count : Int
  reactions_count : Int
deriving DecidableEq, Repr

/-- The author_stats column a diff applies to. -/
inductive AuthorStat
  | followers_count
  | following_count
  | notes_count
deriving DecidableEq, Repr

/-- The event_stats column a diff applies to. -/
inductive EventStat
  | replies_count
  | reposts_count
  | reactions_count
deriving DecidableEq, Repr

/-- StatDiff: either an author_stats diff (keyed by a possibly-undefined
pubkey taken from a tag) or an event_stats diff. -/
inductive StatDiff
  | author (pubkey : Option String) (stat : AuthorStat) (diff : Int)
  | event (eventId : String) (stat : EventStat) (diff : Int)
deriving DecidableEq, Repr

/-- The two stats tables. -/
structure Tables where
  author_stats : List (Option String × AuthorStatsRow)
  event_stats : List (String × EventStatsRow)
deriving DecidableEq, Repr

/-- Error raised by the JavaScript runtime when a field of `undefined` is
dereferenced. -/
inductive TSErr
  | typeError
deriving DecidableEq, Repr

/-- An event together with the transient prev field set by maybeSetPrev. -/
structure EventP where
  event : Event
  prev : Option Event
deriving DecidableEq, Repr

/-- Values of the p tags of a tag list, in order, `tag[1]` possibly absent. -/
def pTagValues (tags : List (List String)) : List (Option String) :=
  (tags.filter fun t => t.head? = some "p").map fun t => t.get? 1

/-- Modelled from the spec: findReplyTag (an external dependency) returns the
tag that designates the replied-to event of a note, when the note is a
reply.  We model it as the first e tag carrying the reply marker. -/
def findReplyTag (e : Event) : Option (List String) :=
  e.tags.find? fun t => t.head? = some "e" ∧ t.get? 3 = some "reply"

/-- Compare the old and new follow events (if any), and return a diff array:
pubkeys in the new p-tag set but not the previous one gain a follower, those
only in the previous set lose one. -/
def getFollowDiff (event : Event) (prev : Option Event) : List StatDiff :=
  let prevTags := match prev with
    | some p => p.tags
    | none => []
  let prevPubkeys := (pTagValues prevTags).dedup
  let pubkeys := (pTagValues event.tags).dedup
  let added := pubkeys.filter fun pk => ¬ pk ∈ prevPubkeys
  let removed := prevPubkeys.filter fun pk => ¬ pk ∈ pubkeys
  (added.map fun pk => StatDiff.author pk AuthorStat.followers_count 1) ++
    (removed.map fun pk => StatDiff.author pk AuthorStat.followers_count (-1))

/-- Calculate stats changes ahead of time so an efficient query can be built. -/
def getStatsDiff (e : EventP) : List StatDiff :=
  let firstTaggedId :=
    truthy ((e.event.tags.find? fun t => t.head? = some "e").bind fun t => t.get? 1)
  let inReplyToId := truthy ((findReplyTag e.event).bind fun t => t.get? 1)
  match e.event.kind with
  | 1 =>
    [StatDiff.author (some e.event.pubkey) AuthorStat.notes_count 1] ++
      (match inReplyToId with
        | some i => [StatDiff.event i EventStat.replies_count 1]
        | none => [])
  | 3 => getFollowDiff e.event e.prev
  | 6 =>
    match firstTaggedId with
    | some i => [StatDiff.event i EventStat.reposts_count 1]
    | none => []
  | 7 =>
    match firstTaggedId with
    | some i => [StatDiff.event i EventStat.reactions_count 1]
    | none => []
  | _ => []

/-- Pointwise sum of two author_stats rows (the doUpdateSet merge). -/
def mergeAuthorRow (old new : AuthorStatsRow) : AuthorStatsRow :=
  ⟨old.followers_count + new.followers_count,
    old.following_count + new.following_count,
    old.notes_count + new.notes_count⟩

/-- Pointwise sum of two event_stats rows (the doUpdateSet merge). -/
def mergeEventRow (old new : EventStatsRow) : EventStatsRow :=
  ⟨old.replies_count + new.replies_count,
    old.reposts_count + new.reposts_count,
    old.reactions_count + new.reactions_count⟩

/-- One merge-upsert step into author_stats: insert the row, or on a pubkey
conflict add it to the existing row. -/
def authorUpsertMerge (t : List (Option String × AuthorStatsRow))
    (kv : Option String × AuthorStatsRow) : List (Option String × AuthorStatsRow) :=
  match alGet t kv.1 with
  | some old => alSet t kv.1 (mergeAuthorRow old kv.2)
  | none => t ++ [kv]

/-- One merge-upsert step into event_stats. -/
def eventUpsertMerge (t : List (String × EventStatsRow))
    (kv : String × EventStatsRow) : List (String × EventStatsRow) :=
  match alGet t kv.1 with
  | some old => alSet t kv.1 (mergeEventRow old kv.2)
  | none => t ++ [kv]

/-- Row built by authorStatsQuery for one diff: every column 0 except the
diffed one. -/
def authorDiffRow (stat : AuthorStat) (d : Int) : AuthorStatsRow :=
  match stat with
  | AuthorStat.followers_count => ⟨d, 0, 0⟩
  | AuthorStat.following_count => ⟨0, d, 0⟩
  | AuthorStat.notes_count => ⟨0, 0, d⟩

/-- Row built by eventStatsQuery for one diff. -/
def eventDiffRow (stat : EventStat) (d : Int) : EventStatsRow :=
  match stat with
  | EventStat.replies_count => ⟨d, 0, 0⟩
  | EventStat.reposts_count => ⟨0, d, 0⟩
  | EventStat.reactions_count => ⟨0, 0, d⟩

/-- Author stats query from a list of diffs: a multi-row insert with
on-conflict additive merge, applied row by row. -/
def authorStatsQuery (diffs : List (Option String × AuthorStat × Int)) (t : Tables) : Tables :=
  { t with author_stats :=
      (diffs.map fun d => (d.1, authorDiffRow d.2.1 d.2.2)).foldl authorUpsertMerge t.author_stats }

/-- Event stats query from a list of diffs. -/
def eventStatsQuery (diffs : List (String × EventStat × Int)) (t : Tables) : Tables :=
  { t with event_stats :=
      (diffs.map fun d => (d.1, eventDiffRow d.2.1 d.2.2)).foldl eventUpsertMerge t.event_stats }

/-- The number of unique p tags of a follow list (the size of the Set built
from the p-tag values, `undefined` counting as a member like in JS). -/
def followingCountOf (tags : List (List String)) : Int :=
  ((pTagValues tags).dedup).length

/-- Set the following count to the total number of unique p tags in the
follow list: insert-on-conflict that overwrites only following_count. -/
def updateFollowingCountQuery (e : Event) (t : Tables) : Tables :=
  let following_count := followingCountOf e.tags
  { t with author_stats :=
      match alGet t.author_stats (some e.pubkey) with
      | some old => alSet t.author_stats (some e.pubkey) { old with following_count := following_count }
      | none => t.author_stats ++ [(some e.pubkey, ⟨0, following_count, 0⟩)] }

/-- Modelled from the spec: getFilters of the events database module
(src/db/events.ts, not among the sources) returns the stored events matching
the filter, newest first, truncated to the limit.  Insertion into the
descending order used for the newest-first sort. -/
def insertDesc (e : Event) : List Event → List Event
  | [] => [e]
  | x :: xs => if x.created_at ≤ e.created_at then e :: x :: xs else x :: insertDesc e xs

/-- Modelled from the spec: sort events newest first. -/
def sortDesc (l : List Event) : List Event :=
  l.foldr insertDesc []

/-- Modelled from the spec: the getFilters query used by maybeSetPrev, for a
filter of the form kinds + authors + limit. -/
def getFilters (store : List Event) (kinds : List Nat) (authors : List String)
    (limit : Nat) : List Event :=
  (sortDesc (store.filter fun x => x.kind ∈ kinds ∧ x.pubkey ∈ authors)).take limit

/-- Set the prev value on the event to the last stored version of the event,
if any.  The destructuring `const [prev] = ...` yields `undefined` on an empty
result, and the unguarded read `prev.created_at` then throws a TypeError. -/
def maybeSetPrev (store : List Event) (e : EventP) : Except TSErr EventP :=
  if (e.prev.map Event.kind) = some e.event.kind then Except.ok e
  else
    match (getFilters store [e.event.kind] [e.event.pubkey] 1).head? with
    | none => Except.error TSErr.typeError
    | some prev =>
      if prev.created_at < e.event.created_at then Except.ok { e with prev := some prev }
      else Except.ok e

/-- Key and column parts of the author diffs of a diff list. -/
def authorDiffsOf (l : List StatDiff) : List (Option String × AuthorStat × Int) :=
  l.filterMap fun d => match d with
    | StatDiff.author pk stat n => some (pk, stat, n)
    | StatDiff.event _ _ _ => none

/-- Key and column parts of the event diffs of a diff list. -/
def eventDiffsOf (l : List StatDiff) : List (String × EventStat × Int) :=
  l.filterMap fun d => match d with
    | StatDiff.author _ _ _ => none
    | StatDiff.event i stat n => some (i, stat, n)

/-- Store stats for the event: for kind 3 resolve the previous version and
queue the following-count replacement, then queue the merge queries for the
computed diffs, and execute everything. -/
def updateStats (store : List Event) (e : EventP) (t : Tables) : Except TSErr Tables := do
  let (e, queries) ←
    if e.event.kind = 3 then do
      let e ← maybeSetPrev store e
      pure (e, [updateFollowingCountQuery e.event])
    else pure (e, ([] : List (Tables → Tables)))
  let statDiffs := getStatsDiff e
  let pubkeyDiffs := authorDiffsOf statDiffs
  let eventDiffs := eventDiffsOf statDiffs
  let queries := queries ++
    (if pubkeyDiffs.isEmpty then [] else [authorStatsQuery pubkeyDiffs]) ++
    (if eventDiffs.isEmpty then [] else [eventStatsQuery eventDiffs])
  pure (queries.foldl (fun t q => q t) t)

end Stats

namespace Pipeline

/-!
Embedding of the later revision of src/pipeline.ts.  External collaborators
(verification worker, policy worker, nip05 cache, metadata parsing, bolt11
decoding, admin signer) are supplied through an environment of oracle
functions; the durable tables and the fan-out log are explicit state.  A
thrown RelayError becomes a `some err` result; the silent `return` paths of
handleEvent yield `none` like a normal completion does.
-/

/-- Error classes of RelayError (the taxonomy of the error design). -/
inductive ErrKind
  | invalid
  | duplicate
  | blocked
  | error
deriving DecidableEq, Repr

/-- RelayError: an error class together with its message. -/
structure RelayError where
  code : ErrKind
  message : String
deriving DecidableEq, Repr

/-- Outcome of a policy oracle call: the ok result tuple, a rejection result,
or a thrown (non-RelayError) exception. -/
inductive PolicyResult
  | accept
  | reject (msg : String)
  | fault
deriving DecidableEq, Repr

/-- Outcome of the stats step of the persistence transaction: success, the one
recognized secondary-index conflict, or any other failure. -/
inductive StatsOutcome
  | ok
  | conflict
  | fail
deriving DecidableEq, Repr

/-- Row of the pubkey_domains table. -/
structure DomainRow where
  domain : String
  last_updated_at : Nat
deriving DecidableEq, Repr

/-- Row of the event_zaps table, keyed by the unique receipt_id. -/
structure ZapRow where
  receipt_id : String
  target_event_id : String
  sender_pubkey : String
  amount_millisats : Nat
  comment : String
deriving DecidableEq, Repr

/-- Environment of the pipeline: the oracles and external parsers it calls.
Each field models one external collaborator of src/pipeline.ts. -/
structure Env where
  now : Nat
  confPubkey : String
  verify : Event → Bool
  policy : Event → PolicyResult
  userTags : String → Option (List (List String))
  metaName : String → Option String
  metaNip05 : String → Option String
  nip05Pubkey : String → Option String
  nip05Domain : String → String
  parseZapRequest : String → Option Event
  bolt11Amount : Option String → Nat
  adminEventId : String → String
  statsOutcome : String → StatsOutcome

/-- Mutable state the pipeline touches: the dedup cache, the events table, the
stats tables, the secondary tables, the fan-out log, and a trace of the events
the policy oracle was invoked on. -/
structure State where
  encounters : List String
  events : List Event
  tables : Stats.Tables
  pubkey_domains : List (String × DomainRow)
  event_zaps : List ZapRow
  author_search : List (String × String)
  pubsub : List Event
  policyCalls : List String
deriving DecidableEq, Repr

/-- Modelled from the spec: NKinds.ephemeral of the protocol library classifies
the ephemeral kind range, 20000 <= kind < 30000. -/
def ephemeralKind (k : Nat) : Bool :=
  20000 ≤ k ∧ k < 30000

/-- Modelled from the spec: getTagSet (src/utils/tags.ts, not among the
sources) collects the set of values of the tags with the given name. -/
def getTagSet (tags : List (List String)) (tagName : String) : List String :=
  (((tags.filter fun t => t.head? = some tagName).filterMap fun t =>
      truthy (t.get? 1))).dedup

/-- Encounter the event in the bounded LRU dedup cache, and return whether it
had already been encountered.  The cache list is most-recent-first; a get
refreshes recency, a set inserts at the front and evicts beyond the capacity
of 1000. -/
def encounterEvent (id : String) (c : List String) : Bool × List String :=
  if id ∈ c then (true, id :: c.erase id)
  else (false, (id :: c).take 1000)

/-- Check if the event already exists in the database: a query by its id
returns at least one row. -/
def existsInDB (e : Event) (events : List Event) : Bool :=
  events.any fun x => x.id = e.id

/-- Evaluate the policy oracle on the event.  A rejection is re-thrown as the
asserted RelayError; any other exception is replaced by a fail-closed
RelayError with class blocked.  Modelled from the spec where RelayError.assert
(src/RelayError.ts, not among the sources) is concerned: a rejection is
treated as fail-closed blocked. -/
def policyFilter (env : Env) (e : Event) : Option RelayError :=
  match env.policy e with
  | PolicyResult.accept => none
  | PolicyResult.reject m => some ⟨ErrKind.blocked, m⟩
  | PolicyResult.fault => some ⟨ErrKind.blocked, "policy error"⟩

/-- Modelled from the spec: the delta application of the stats step.  The
updateStats of src/utils/stats.ts is not among the sources (src/stats.ts
holds an earlier revision of the module); per the spec it derives the stat
deltas of the event (with the latest stored previous version for a follow
list, tolerating its absence) and applies them as merge upserts, recomputing
following_count wholesale. -/
def statsTablesOf (e : Event) (events : List Event) (tables : Stats.Tables) : Stats.Tables :=
  let prev := if e.kind = 3 then
      (Stats.getFilters (events.filter fun x => x.created_at < e.created_at)
        [e.kind] [e.pubkey] 1).head?
    else none
  let statDiffs := Stats.getStatsDiff ⟨e, prev⟩
  let t := if e.kind = 3 then Stats.updateFollowingCountQuery e tables else tables
  let t := if (Stats.authorDiffsOf statDiffs).isEmpty then t
    else Stats.authorStatsQuery (Stats.authorDiffsOf statDiffs) t
  if (Stats.eventDiffsOf statDiffs).isEmpty then t
  else Stats.eventStatsQuery (Stats.eventDiffsOf statDiffs) t

/-- Modelled from the spec: the stats step of the persistence transaction
(updateStats of src/utils/stats.ts, not among the sources).  The one
recognized secondary-index conflict is swallowed inside the stats step
leaving the tables untouched, any other failure propagates, and on success
the deltas of statsTablesOf are applied. -/
def updateStatsU (env : Env) (e : Event) (s : State) : Except RelayError State :=
  match env.statsOutcome e.id with
  | StatsOutcome.conflict => Except.ok s
  | StatsOutcome.fail => Except.error ⟨ErrKind.error, "stats update failed"⟩
  | StatsOutcome.ok => Except.ok { s with tables := statsTablesOf e s.events s.tables }

/-- Modelled from the spec: inserting the event into the backing store, whose
unique-key constraint on the event id is the ultimate dedup authority. -/
def storeEventTx (e : Event) (s : State) : Except RelayError State :=
  if s.events.any fun x => x.id = e.id then
    Except.error ⟨ErrKind.error, "unique constraint violation"⟩
  else Except.ok { s with events := s.events ++ [e] }

/-- Maybe store the event, if eligible: ephemeral events are skipped; other
events run the stats step and the insert inside one transaction, whose
failure rolls every write back and surfaces to the caller. -/
def storeEvent (env : Env) (e : Event) (s : State) : Option RelayError × State :=
  if ephemeralKind e.kind then (none, s)
  else
    match (do
      let s1 ← updateStatsU env e s
      storeEventTx e s1) with
    | Except.ok s2 => (none, s2)
    | Except.error err => (some err, s)

/-- Stores the zap receipt in the event_zaps table; the unique receipt_id
constraint conflict is caught and ignored. -/
def handleZaps (env : Env) (e : Event) (s : State) : State :=
  if e.kind ≠ 9735 then s
  else
    match truthy ((e.tags.find? fun t => t.head? = some "description").bind fun t => t.get? 1) with
    | none => s
    | some zapRequestString =>
      match env.parseZapRequest zapRequestString with
      | none => s
      | some zapRequest =>
        let amount_millisats :=
          env.bolt11Amount ((e.tags.find? fun t => t.head? = some "bolt11").bind fun t => t.get? 1)
        if amount_millisats < 1 then s
        else
          match truthy ((zapRequest.tags.find? fun t => t.head? = some "e").bind fun t => t.get? 1) with
          | none => s
          | some zappedEventId =>
            if s.event_zaps.any fun z => z.receipt_id = e.id then s
            else { s with event_zaps := s.event_zaps ++
                [⟨e.id, zappedEventId, zapRequest.pubkey, amount_millisats, zapRequest.content⟩] }

/-- Upserts the searchable name and nip05 of a kind 0 profile into the
author_search table, replacing the search text on a pubkey conflict. -/
def handleAuthorSearch (env : Env) (e : Event) (s : State) : State :=
  if e.kind ≠ 0 then s
  else
    let name := env.metaName e.content
    let nip05 := env.metaNip05 e.content
    let search := (String.intercalate " "
      (([name, nip05].filterMap id).filter fun x => x ≠ "")).trim
    { s with author_search := alSet s.author_search e.pubkey search }

/-- Parse kind 0 metadata and track the pubkey domain: resolve the nip05 via
the cache, require the resolved pubkey to match the event, then upsert into
pubkey_domains keeping the row with the latest last_updated_at. -/
def parseMetadata (env : Env) (e : Event) (s : State) : State :=
  if e.kind ≠ 0 then s
  else
    match truthy (env.metaNip05 e.content) with
    | none => s
    | some nip05 =>
      match env.nip05Pubkey nip05 with
      | none => s
      | some pubkey =>
        if pubkey ≠ e.pubkey then s
        else
          let domain := env.nip05Domain nip05
          match alGet s.pubkey_domains pubkey with
          | none =>
            { s with pubkey_domains := s.pubkey_domains ++ [(pubkey, ⟨domain, e.created_at⟩)] }
          | some old =>
            if e.created_at > old.last_updated_at then
              { s with pubkey_domains := alSet s.pubkey_domains pubkey ⟨domain, e.created_at⟩ }
            else s

/-- Determine if the event is being received in a timely manner: its age is
under ten seconds.  Modelled from the spec where eventAge and Time
(src/utils.ts, not among the sources) are concerned: the age of an event is
the current time minus its created_at. -/
def isFresh (env : Env) (e : Event) : Bool :=
  (env.now : Int) - (e.created_at : Int) < 10

/-- Distribute the event through active subscriptions, only when fresh. -/
def streamOut (env : Env) (e : Event) (s : State) : State :=
  if isFresh env e then { s with pubsub := s.pubsub ++ [e] } else s

/-- Whether the event tags the admin with a p or P tag. -/
def tagsAdmin (env : Env) (e : Event) : Bool :=
  e.tags.any fun t =>
    (t.head? = some "p" ∨ t.head? = some "P") ∧ t.get? 1 = some env.confPubkey

/-- The derived administrative event signed by the AdminSigner for a report
(kind 1984) addressed to the admin. -/
def reportRelEvent (env : Env) (e : Event) : Event :=
  { id := env.adminEventId e.id
    pubkey := env.confPubkey
    kind := 30383
    created_at := env.now
    tags := [["d", e.id], ["p", e.pubkey], ["k", "1984"], ["n", "open"]] ++
      ((getTagSet e.tags "p").map fun pk => ["P", pk]) ++
      ((getTagSet e.tags "e").map fun i => ["e", i])
    content := ""
    sig := "" }

/-- The derived administrative event signed by the AdminSigner for an event
request (kind 3036) addressed to the admin. -/
def requestRelEvent (env : Env) (e : Event) : Event :=
  { id := env.adminEventId e.id
    pubkey := env.confPubkey
    kind := 30383
    created_at := env.now
    tags := [["d", e.id], ["p", e.pubkey], ["k", "3036"], ["n", "pending"]]
    content := ""
    sig := "" }

/-- Generate the derived administrative events for reports and requests that
tag the admin, feeding each back through the pipeline; the recursive
invocation is passed in by the caller. -/
def generateSetEvents (env : Env)
    (handle : Event → State → Option RelayError × State)
    (e : Event) (s : State) : Option RelayError × State :=
  let (err1, s) :=
    if e.kind = 1984 ∧ tagsAdmin env e then handle (reportRelEvent env e) s
    else (none, s)
  let (err2, s) :=
    if e.kind = 3036 ∧ tagsAdmin env e then handle (requestRelEvent env e) s
    else (none, s)
  (err1 <|> err2, s)

/-- Common pipeline function to process (and maybe store) events, with a
recursion depth for the derived-event re-entry (the derived events have kind
30383, which never spawns further ones, so a depth of 2 is exact).  The
ordered steps: the integer range guards, signature verification (silent
return on failure), the dedup cache and the database dedup check (silent
return on a hit), policy evaluation (skipped for kind 24133), hydration and
the disabled-user check, then the concurrent effect stage: persistence with
stats, zap indexing, author search, metadata tracking, derived events, and
live fan-out. -/
def handleEvent (env : Env) : Nat → Event → State → Option RelayError × State
  | 0, _, s => (none, s)
  | fuel + 1, e, s =>
    if e.created_at ≥ 2147483647 then (some ⟨ErrKind.blocked, "event too far in the future"⟩, s)
    else if e.kind ≥ 2147483647 then (some ⟨ErrKind.blocked, "event kind too large"⟩, s)
    else if ¬ env.verify e then (none, s)
    else
      let (encountered, enc) := encounterEvent e.id s.encounters
      let s := { s with encounters := enc }
      if encountered then (none, s)
      else if existsInDB e s.events then (none, s)
      else
        let (polErr, s) :=
          if e.kind ≠ 24133 then
            (policyFilter env e, { s with policyCalls := s.policyCalls ++ [e.id] })
          else (none, s)
        match polErr with
        | some err => (some err, s)
        | none =>
          let user := env.userTags e.pubkey
          let n := getTagSet (user.getD []) "n"
          if "disabled" ∈ n then (some ⟨ErrKind.blocked, "user is disabled"⟩, s)
          else
            let (err1, s) := storeEvent env e s
            let s := handleZaps env e s
            let s := handleAuthorSearch env e s
            let s := parseMetadata env e s
            let (err2, s) := generateSetEvents env (handleEvent env fuel) e s
            let s := streamOut env e s
            (err1 <|> err2, s)

/-- The pipeline entry point: handleEvent at the recursion depth the derived
administrative events can reach. -/
def process (env : Env) (e : Event) (s : State) : Option RelayError × State :=
  handleEvent env 2 e s

end Pipeline

namespace Pipeline

/-!
Interleaving model for the concurrent effect stage of handleEvent.  The
Promise.all of handleEvent starts storeEvent and streamOut (among others)
concurrently; each branch is a sequence of atomic steps, and the JavaScript
event loop realizes some merge of the two sequences.  storeEvent runs its
transaction body (the stats step, then the insert) and then the transaction
commit; streamOut performs one delivery to the live subscribers.
-/

/-- Atomic steps of the persistence and fan-out branches. -/
inductive PAction
  | stats
  | insert
  | commit
  | deliver
deriving DecidableEq, Repr

/-- The sequence of atomic steps storeEvent contributes: nothing for an
ephemeral event, otherwise the transaction body in stats-then-insert order
followed by the commit. -/
def storeEventActions (e : Event) : List PAction :=
  if ephemeralKind e.kind then []
  else [PAction.stats, PAction.insert, PAction.commit]

/-- The sequence of atomic steps streamOut contributes: one delivery when the
event is fresh, nothing otherwise. -/
def streamOutActions (env : Env) (e : Event) : List PAction :=
  if isFresh env e then [PAction.deliver] else []

/-- Merge of two step sequences under a schedule: each Bool picks the branch
supplying the next step, so the merges over all schedules are exactly the
order-preserving interleavings the event loop may realize. -/
def mergeBy : List Bool → List PAction → List PAction → List PAction
  | _, [], ys => ys
  | _, x :: xs, [] => x :: xs
  | [], x :: xs, y :: ys => x :: xs ++ y :: ys
  | b :: bs, x :: xs, y :: ys =>
    if b then x :: mergeBy bs xs (y :: ys) else y :: mergeBy bs (x :: xs) ys

/-- Index of the first occurrence of a step in a trace (the length when the
step does not occur). -/
def firstIdx (a : PAction) : List PAction → Nat
  | [] => 0
  | x :: xs => if x = a then 0 else firstIdx a xs + 1

end Pipeline

namespace Stats

/-- Followers count read off an author_stats list, a missing row reading 0
(the value the merge-upsert seeds). -/
def followersOfL (l : List (Option String × AuthorStatsRow)) (pk : Option String) : Int :=
  ((alGet l pk).map (·.followers_count)).getD 0

/-- Following count read off an author_stats list, a missing row reading 0. -/
def followingOfL (l : List (Option String × AuthorStatsRow)) (pk : Option String) : Int :=
  ((alGet l pk).map (·.following_count)).getD 0

/-- Followers count of the author_stats table. -/
def followersOf (t : Tables) (pk : Option String) : Int :=
  followersOfL t.author_stats pk

/-- Following count of the author_stats table. -/
def followingOf (t : Tables) (pk : Option String) : Int :=
  followingOfL t.author_stats pk

end Stats

namespace Pipeline

/-- A benign environment: verification succeeds, policy accepts, no local
user data, external parsers resolve nothing, the stats step succeeds; the
clock stands at 1000. -/
def benignEnv : Env :=
  { now := 1000
    confPubkey := "admin"
    verify := fun _ => true
    policy := fun _ => PolicyResult.accept
    userTags := fun _ => none
    metaName := fun _ => none
    metaNip05 := fun _ => none
    nip05Pubkey := fun _ => none
    nip05Domain := fun _ => ""
    parseZapRequest := fun _ => none
    bolt11Amount := fun _ => 0
    adminEventId := fun i => String.append i "r"
    statsOutcome := fun _ => StatsOutcome.ok }

/-- The empty pipeline state. -/
def emptyState : State := ⟨[], [], ⟨[], []⟩, [], [], [], [], []⟩

end Pipeline

namespace Pipeline

/-- A successful stats step changes only the stats tables. -/
theorem updateStatsU_shape (env : Env) (e : Event) (s : State) (s1 : State)
    (h : updateStatsU env e s = Except.ok s1) :
    s1.encounters = s.encounters ∧ s1.events = s.events ∧ s1.pubsub = s.pubsub ∧
      s1.policyCalls = s.policyCalls ∧ s1.event_zaps = s.event_zaps ∧
      s1.pubkey_domains = s.pubkey_domains ∧ s1.author_search = s.author_search := by
  unfold updateStatsU at h
  split at h
  · simp only [Except.ok.injEq] at h
    subst h; simp
  · simp at h
  · simp only [Except.ok.injEq] at h
    subst h; simp

/-- storeEvent changes only the events table and the stats tables. -/
theorem storeEvent_components (env : Env) (e : Event) (s : State) :
    (storeEvent env e s).2.encounters = s.encounters ∧
    (storeEvent env e s).2.pubsub = s.pubsub ∧
    (storeEvent env e s).2.policyCalls = s.policyCalls ∧
    (storeEvent env e s).2.event_zaps = s.event_zaps ∧
    (storeEvent env e s).2.pubkey_domains = s.pubkey_domains ∧
    (storeEvent env e s).2.author_search = s.author_search := by
  unfold storeEvent
  split
  · simp
  · cases hu : updateStatsU env e s with
    | error err => simp [Bind.bind, Except.bind, hu]
    | ok s1 =>
      have hs := updateStatsU_shape env e s s1 hu
      cases ht : storeEventTx e s1 with
      | error err => simp [Bind.bind, Except.bind, hu, ht]
      | ok s2 =>
        have h2 : s2 = { s1 with events := s1.events ++ [e] } := by
          unfold storeEventTx at ht
          split at ht
          · simp at ht
          · simp only [Except.ok.injEq] at ht
            exact ht.symm
        subst h2
        simp only [Bind.bind, Except.bind, hu, ht]
        simp_all

/-- handleZaps changes only the event_zaps table. -/
theorem handleZaps_components (env : Env) (e : Event) (s : State) :
    (handleZaps env e s).encounters = s.encounters ∧
    (handleZaps env e s).events = s.events ∧
    (handleZaps env e s).tables = s.tables ∧
    (handleZaps env e s).pubsub = s.pubsub ∧
    (handleZaps env e s).policyCalls = s.policyCalls ∧
    (handleZaps env e s).pubkey_domains = s.pubkey_domains ∧
    (handleZaps env e s).author_search = s.author_search := by
  unfold handleZaps
  repeat' split
  all_goals try simp
  all_goals (split; all_goals simp)

/-- handleAuthorSearch changes only the author_search table. -/
theorem handleAuthorSearch_components (env : Env) (e : Event) (s : State) :
    (handleAuthorSearch env e s).encounters = s.encounters ∧
    (handleAuthorSearch env e s).events = s.events ∧
    (handleAuthorSearch env e s).tables = s.tables ∧
    (handleAuthorSearch env e s).pubsub = s.pubsub ∧
    (handleAuthorSearch env e s).policyCalls = s.policyCalls ∧
    (handleAuthorSearch env e s).pubkey_domains = s.pubkey_domains ∧
    (handleAuthorSearch env e s).event_zaps = s.event_zaps := by
  unfold handleAuthorSearch
  repeat' split
  all_goals simp

/-- parseMetadata changes only the pubkey_domains table. -/
theorem parseMetadata_components (env : Env) (e : Event) (s : State) :
    (parseMetadata env e s).encounters = s.encounters ∧
    (parseMetadata env e s).events = s.events ∧
    (parseMetadata env e s).tables = s.tables ∧
    (parseMetadata env e s).pubsub = s.pubsub ∧
    (parseMetadata env e s).policyCalls = s.policyCalls ∧
    (parseMetadata env e s).event_zaps = s.event_zaps ∧
    (parseMetadata env e s).author_search = s.author_search := by
  unfold parseMetadata
  repeat' split
  all_goals simp

/-- streamOut changes only the fan-out log. -/
theorem streamOut_components (env : Env) (e : Event) (s : State) :
    (streamOut env e s).encounters = s.encounters ∧
    (streamOut env e s).events = s.events ∧
    (streamOut env e s).tables = s.tables ∧
    (streamOut env e s).policyCalls = s.policyCalls ∧
    (streamOut env e s).event_zaps = s.event_zaps ∧
    (streamOut env e s).pubkey_domains = s.pubkey_domains ∧
    (streamOut env e s).author_search = s.author_search := by
  unfold streamOut
  split
  all_goals simp

/-- generateSetEvents is a no-op for an event that is neither a report nor an
event request. -/
theorem generateSetEvents_skip (env : Env)
    (handle : Event → State → Option RelayError × State) (e : Event) (s : State)
    (h1 : e.kind ≠ 1984) (h2 : e.kind ≠ 3036) :
    generateSetEvents env handle e s = (none, s) := by
  unfold generateSetEvents
  simp [h1, h2]

end Pipeline

namespace Pipeline

/-- Reduction of handleEvent on a dedup-cache hit: past the guards and the
verification, an encountered id returns silently, only refreshing the cache. -/
theorem handleEvent_hit_cache (env : Env) (fuel : Nat) (e : Event) (s : State)
    (h1 : e.created_at < 2147483647) (h2 : e.kind < 2147483647)
    (h3 : env.verify e = true)
    (h4 : e.id ∈ s.encounters) :
    handleEvent env (fuel + 1) e s =
      (none, { s with encounters := e.id :: s.encounters.erase e.id }) := by
  unfold handleEvent
  rw [if_neg (by omega), if_neg (by omega), if_neg (by simp [h3])]
  simp only [encounterEvent, if_pos h4]
  simp

/-- Reduction of handleEvent on a database dedup hit: a stored id returns
silently, only marking the cache. -/
theorem handleEvent_hit_db (env : Env) (fuel : Nat) (e : Event) (s : State)
    (h1 : e.created_at < 2147483647) (h2 : e.kind < 2147483647)
    (h3 : env.verify e = true)
    (h4 : e.id ∉ s.encounters)
    (h5 : existsInDB e s.events = true) :
    handleEvent env (fuel + 1) e s =
      (none, { s with encounters := (e.id :: s.encounters).take 1000 }) := by
  unfold handleEvent
  rw [if_neg (by omega), if_neg (by omega), if_neg (by simp [h3])]
  simp only [encounterEvent, if_neg h4, h5]
  simp

/-- Reduction of handleEvent when the policy evaluation stops the event: the
pipeline fails with the policy error after marking the cache and recording the
oracle call. -/
theorem handleEvent_policy_stop (env : Env) (fuel : Nat) (e : Event) (s : State)
    (err : RelayError)
    (h1 : e.created_at < 2147483647) (h2 : e.kind < 2147483647)
    (h3 : env.verify e = true)
    (h4 : e.id ∉ s.encounters)
    (h5 : existsInDB e s.events = false)
    (h6 : e.kind ≠ 24133)
    (h7 : policyFilter env e = some err) :
    handleEvent env (fuel + 1) e s =
      (some err, { s with encounters := (e.id :: s.encounters).take 1000,
                          policyCalls := s.policyCalls ++ [e.id] }) := by
  unfold handleEvent
  rw [if_neg (by omega), if_neg (by omega), if_neg (by simp [h3])]
  simp only [encounterEvent, if_neg h4, h5]
  rw [if_neg (by simp)]
  rw [if_pos h6, h7]
  simp

/-- Reduction of handleEvent to the concurrent effect stage, for an event the
policy oracle accepts. -/
theorem handleEvent_run (env : Env) (fuel : Nat) (e : Event) (s : State)
    (h1 : e.created_at < 2147483647) (h2 : e.kind < 2147483647)
    (h3 : env.verify e = true)
    (h4 : e.id ∉ s.encounters)
    (h5 : existsInDB e s.events = false)
    (h6 : e.kind ≠ 24133)
    (h7 : env.policy e = PolicyResult.accept)
    (h8 : ¬ "disabled" ∈ getTagSet ((env.userTags e.pubkey).getD []) "n") :
    handleEvent env (fuel + 1) e s =
      (let s1 : State := { s with encounters := (e.id :: s.encounters).take 1000,
                                  policyCalls := s.policyCalls ++ [e.id] }
       let p1 := storeEvent env e s1
       let s3 := handleZaps env e p1.2
       let s4 := handleAuthorSearch env e s3
       let s5 := parseMetadata env e s4
       let p2 := generateSetEvents env (handleEvent env fuel) e s5
       let s7 := streamOut env e p2.2
       (p1.1 <|> p2.1, s7)) := by
  unfold handleEvent
  rw [if_neg (by omega), if_neg (by omega), if_neg (by simp [h3])]
  simp only [encounterEvent, if_neg h4, h5]
  rw [if_neg (by simp)]
  rw [if_pos h6]
  simp only [policyFilter, h7]
  rw [if_neg h8]
  rw [if_neg (by simp)]

/-- Reduction of handleEvent to the concurrent effect stage for a kind 24133
event, for which the policy oracle is never invoked. -/
theorem handleEvent_run24133 (env : Env) (fuel : Nat) (e : Event) (s : State)
    (h1 : e.created_at < 2147483647) (h2 : e.kind < 2147483647)
    (h3 : env.verify e = true)
    (h4 : e.id ∉ s.encounters)
    (h5 : existsInDB e s.events = false)
    (h6 : e.kind = 24133)
    (h8 : ¬ "disabled" ∈ getTagSet ((env.userTags e.pubkey).getD []) "n") :
    handleEvent env (fuel + 1) e s =
      (let s1 : State := { s with encounters := (e.id :: s.encounters).take 1000 }
       let p1 := storeEvent env e s1
       let s3 := handleZaps env e p1.2
       let s4 := handleAuthorSearch env e s3
       let s5 := parseMetadata env e s4
       let p2 := generateSetEvents env (handleEvent env fuel) e s5
       let s7 := streamOut env e p2.2
       (p1.1 <|> p2.1, s7)) := by
  unfold handleEvent
  rw [if_neg (by omega), if_neg (by omega), if_neg (by simp [h3])]
  simp only [encounterEvent, if_neg h4, h5]
  rw [if_neg (show ¬ (false = true) by simp)]
  rw [if_neg (show ¬ (e.kind ≠ 24133) from fun hh => hh h6)]
  rw [if_neg h8]
  rw [if_neg (show ¬ (false = true) by simp)]

end Pipeline

namespace Pipeline

/-- storeEvent skips ephemeral events entirely. -/
theorem storeEvent_ephemeral (env : Env) (e : Event) (s : State)
    (h : ephemeralKind e.kind = true) : storeEvent env e s = (none, s) := by
  unfold storeEvent
  rw [if_pos h]

/-- handleZaps ignores events that are not zap receipts. -/
theorem handleZaps_skip (env : Env) (e : Event) (s : State)
    (h : e.kind ≠ 9735) : handleZaps env e s = s := by
  unfold handleZaps
  rw [if_pos h]

/-- handleAuthorSearch ignores events that are not profiles. -/
theorem handleAuthorSearch_skip (env : Env) (e : Event) (s : State)
    (h : e.kind ≠ 0) : handleAuthorSearch env e s = s := by
  unfold handleAuthorSearch
  rw [if_pos h]

/-- parseMetadata ignores events that are not profiles. -/
theorem parseMetadata_skip (env : Env) (e : Event) (s : State)
    (h : e.kind ≠ 0) : parseMetadata env e s = s := by
  unfold parseMetadata
  rw [if_pos h]

/-- streamOut drops an event that is not fresh. -/
theorem streamOut_stale (env : Env) (e : Event) (s : State)
    (h : isFresh env e = false) : streamOut env e s = s := by
  unfold streamOut
  rw [h]
  simp

/-- Reduction of handleEvent when the hydrated user carries the disabled
marker: the pipeline fails the event as blocked. -/
theorem handleEvent_disabled (env : Env) (fuel : Nat) (e : Event) (s : State)
    (h1 : e.created_at < 2147483647) (h2 : e.kind < 2147483647)
    (h3 : env.verify e = true)
    (h4 : e.id ∉ s.encounters)
    (h5 : existsInDB e s.events = false)
    (h7 : e.kind ≠ 24133 → env.policy e = PolicyResult.accept)
    (h8 : "disabled" ∈ getTagSet ((env.userTags e.pubkey).getD []) "n") :
    (handleEvent env (fuel + 1) e s).1 =
      some ⟨ErrKind.blocked, "user is disabled"⟩ := by
  unfold handleEvent
  rw [if_neg (by omega), if_neg (by omega), if_neg (by simp [h3])]
  simp only [encounterEvent, if_neg h4, h5]
  rw [if_neg (show ¬ (false = true) by simp)]
  by_cases hk : e.kind ≠ 24133
  · rw [if_pos hk]
    simp only [policyFilter, h7 hk]
    rw [if_pos h8]
    rw [if_neg (show ¬ (false = true) by simp)]
  · rw [if_neg hk]
    simp only []
    rw [if_pos h8]
    rw [if_neg (show ¬ (false = true) by simp)]

end Pipeline


/-- C6 (amended): an event whose created_at or kind reaches the 32-bit signed
integer bound 2147483647 is rejected, with error class blocked (the code
throws RelayError blocked, not invalid, and rejects the boundary value
itself as well). -/
theorem c6_range_guard_blocked (env : Pipeline.Env) (e : Event) (s : Pipeline.State) :
    (2147483647 ≤ e.created_at →
      Pipeline.process env e s =
        (some ⟨Pipeline.ErrKind.blocked, "event too far in the future"⟩, s)) ∧
    (e.created_at < 2147483647 → 2147483647 ≤ e.kind →
      Pipeline.process env e s =
        (some ⟨Pipeline.ErrKind.blocked, "event kind too large"⟩, s)) := by
  constructor
  · intro h
    unfold Pipeline.process Pipeline.handleEvent
    rw [if_pos h]
  · intro h1 h2
    unfold Pipeline.process Pipeline.handleEvent
    rw [if_neg (by omega), if_pos h2]

/-- C6 counterexample: a concrete event with created_at beyond the 32-bit
bound is rejected with error class blocked, not the error class invalid the
claim states. -/
theorem c6_counterexample :
    (Pipeline.process Pipeline.benignEnv ⟨"e6", "alice", 1, 2147483648, [], "", "s"⟩
        Pipeline.emptyState).1 =
      some ⟨Pipeline.ErrKind.blocked, "event too far in the future"⟩ ∧
    Pipeline.ErrKind.blocked ≠ Pipeline.ErrKind.invalid := by
  constructor
  · rfl
  · decide

/-- C6 witness: the range-guard theorem applied at a concrete event. -/
theorem c6_witness :
    Pipeline.process Pipeline.benignEnv ⟨"e6b", "alice", 1, 3000000000, [], "", "s"⟩
        Pipeline.emptyState =
      (some ⟨Pipeline.ErrKind.blocked, "event too far in the future"⟩, Pipeline.emptyState) :=
  (c6_range_guard_blocked Pipeline.benignEnv _ Pipeline.emptyState).1 (by decide)

/-- C5 (amended): an ephemeral-kind event whose age has reached the 10-second
freshness threshold is silently dropped, independent of its other fields: the
pipeline returns success, and neither stores, fans out, nor otherwise
durably records the event (the code does not reject it as invalid, and the
threshold is 10 seconds, not 60). -/
theorem c5_stale_ephemeral_dropped (env : Pipeline.Env) (e : Event) (s : Pipeline.State)
    (h1 : e.created_at < 2147483647) (h2 : e.kind < 2147483647)
    (h3 : env.verify e = true)
    (h4 : e.id ∉ s.encounters)
    (h5 : Pipeline.existsInDB e s.events = false)
    (hEph : Pipeline.ephemeralKind e.kind = true)
    (hStale : Pipeline.isFresh env e = false)
    (h7 : env.policy e = Pipeline.PolicyResult.accept)
    (h8 : ¬ "disabled" ∈ Pipeline.getTagSet ((env.userTags e.pubkey).getD []) "n") :
    (Pipeline.process env e s).1 = none ∧
    (Pipeline.process env e s).2.events = s.events ∧
    (Pipeline.process env e s).2.tables = s.tables ∧
    (Pipeline.process env e s).2.pubsub = s.pubsub ∧
    (Pipeline.process env e s).2.event_zaps = s.event_zaps ∧
    (Pipeline.process env e s).2.pubkey_domains = s.pubkey_domains ∧
    (Pipeline.process env e s).2.author_search = s.author_search := by
  have hb : 20000 ≤ e.kind ∧ e.kind < 30000 := by simpa [Pipeline.ephemeralKind] using hEph
  by_cases hk : e.kind = 24133
  · rw [show Pipeline.process env e s = Pipeline.handleEvent env (1 + 1) e s from rfl,
      Pipeline.handleEvent_run24133 env 1 e s h1 h2 h3 h4 h5 hk h8]
    simp only [Pipeline.storeEvent_ephemeral env e _ hEph,
      Pipeline.handleZaps_skip env e _ (by omega),
      Pipeline.handleAuthorSearch_skip env e _ (by omega),
      Pipeline.parseMetadata_skip env e _ (by omega),
      Pipeline.generateSetEvents_skip env _ e _ (by omega) (by omega),
      Pipeline.streamOut_stale env e _ hStale]
    simp
  · rw [show Pipeline.process env e s = Pipeline.handleEvent env (1 + 1) e s from rfl,
      Pipeline.handleEvent_run env 1 e s h1 h2 h3 h4 h5 hk h7 h8]
    simp only [Pipeline.storeEvent_ephemeral env e _ hEph,
      Pipeline.handleZaps_skip env e _ (by omega),
      Pipeline.handleAuthorSearch_skip env e _ (by omega),
      Pipeline.parseMetadata_skip env e _ (by omega),
      Pipeline.generateSetEvents_skip env _ e _ (by omega) (by omega),
      Pipeline.streamOut_stale env e _ hStale]
    simp

/-- C5 counterexample: a concrete ephemeral event 100 seconds old is accepted
silently (the result is success, not the invalid rejection the claim
states), and it is neither stored nor fanned out. -/
theorem c5_counterexample :
    (Pipeline.process Pipeline.benignEnv ⟨"e5", "alice", 20001, 900, [], "", "s"⟩
        Pipeline.emptyState).1 = none ∧
    (Pipeline.process Pipeline.benignEnv ⟨"e5", "alice", 20001, 900, [], "", "s"⟩
        Pipeline.emptyState).2.events = [] ∧
    (Pipeline.process Pipeline.benignEnv ⟨"e5", "alice", 20001, 900, [], "", "s"⟩
        Pipeline.emptyState).2.pubsub = [] := by
  refine ⟨rfl, rfl, rfl⟩

/-- C5 witness: the stale-ephemeral theorem applied at a concrete event. -/
theorem c5_witness :
    (Pipeline.process Pipeline.benignEnv ⟨"e5b", "alice", 20002, 900, [], "", "s"⟩
        Pipeline.emptyState).1 = none ∧
    (Pipeline.process Pipeline.benignEnv ⟨"e5b", "alice", 20002, 900, [], "", "s"⟩
        Pipeline.emptyState).2.pubsub = [] :=
  by
    have h := c5_stale_ephemeral_dropped Pipeline.benignEnv
      ⟨"e5b", "alice", 20002, 900, [], "", "s"⟩ Pipeline.emptyState
      (by decide) (by decide) rfl (by decide) rfl rfl rfl rfl (by decide)
    exact ⟨h.1, h.2.2.2.1⟩

/-- C3 (amended): the policy oracle is consulted for every inbound event
except those of kind 24133 — the bypass is keyed on the event kind, not on
the operator identity — and any policy rejection or oracle fault fails the
event as blocked (fail-closed). -/
theorem c3_policy_gate (env : Pipeline.Env) (e : Event) (s : Pipeline.State)
    (h1 : e.created_at < 2147483647) (h2 : e.kind < 2147483647)
    (h3 : env.verify e = true)
    (h4 : e.id ∉ s.encounters)
    (h5 : Pipeline.existsInDB e s.events = false)
    (h8 : ¬ "disabled" ∈ Pipeline.getTagSet ((env.userTags e.pubkey).getD []) "n") :
    (∀ m, e.kind ≠ 24133 → env.policy e = Pipeline.PolicyResult.reject m →
      (Pipeline.process env e s).1 = some ⟨Pipeline.ErrKind.blocked, m⟩) ∧
    (e.kind ≠ 24133 → env.policy e = Pipeline.PolicyResult.fault →
      (Pipeline.process env e s).1 = some ⟨Pipeline.ErrKind.blocked, "policy error"⟩) ∧
    (e.kind = 24133 → (Pipeline.process env e s).2.policyCalls = s.policyCalls) := by
  refine ⟨?_, ?_, ?_⟩
  · intro m hk hrej
    rw [show Pipeline.process env e s = Pipeline.handleEvent env (1 + 1) e s from rfl,
      Pipeline.handleEvent_policy_stop env 1 e s ⟨Pipeline.ErrKind.blocked, m⟩ h1 h2 h3 h4 h5 hk
        (by simp [Pipeline.policyFilter, hrej])]
  · intro hk hfault
    rw [show Pipeline.process env e s = Pipeline.handleEvent env (1 + 1) e s from rfl,
      Pipeline.handleEvent_policy_stop env 1 e s ⟨Pipeline.ErrKind.blocked, "policy error"⟩
        h1 h2 h3 h4 h5 hk (by simp [Pipeline.policyFilter, hfault])]
  · intro hk
    rw [show Pipeline.process env e s = Pipeline.handleEvent env (1 + 1) e s from rfl,
      Pipeline.handleEvent_run24133 env 1 e s h1 h2 h3 h4 h5 hk h8]
    simp only [Pipeline.generateSetEvents_skip env _ e _ (by omega) (by omega)]
    simp only [(Pipeline.streamOut_components env e _).2.2.2.1,
      (Pipeline.parseMetadata_components env e _).2.2.2.2.1,
      (Pipeline.handleAuthorSearch_components env e _).2.2.2.2.1,
      (Pipeline.handleZaps_components env e _).2.2.2.2.1,
      (Pipeline.storeEvent_components env e _).2.2.1]

/-- C3 counterexample: a concrete kind 24133 event from a non-operator pubkey
is processed without any policy oracle call even though the environment would
reject it: the bypass is by kind, not by the operator identity. -/
theorem c3_counterexample :
    (Pipeline.process
        { Pipeline.benignEnv with policy := fun _ => Pipeline.PolicyResult.reject "no" }
        ⟨"e3", "mallory", 24133, 995, [], "", "s"⟩ Pipeline.emptyState).1 = none ∧
    (Pipeline.process
        { Pipeline.benignEnv with policy := fun _ => Pipeline.PolicyResult.reject "no" }
        ⟨"e3", "mallory", 24133, 995, [], "", "s"⟩ Pipeline.emptyState).2.policyCalls = [] ∧
    ("mallory" ≠ "admin") := by
  refine ⟨rfl, rfl, by decide⟩

/-- C3 witness: the policy-gate theorem applied at a concrete rejected event. -/
theorem c3_witness :
    (Pipeline.process
        { Pipeline.benignEnv with policy := fun _ => Pipeline.PolicyResult.reject "nope" }
        ⟨"e3b", "alice", 1, 995, [], "", "s"⟩ Pipeline.emptyState).1 =
      some ⟨Pipeline.ErrKind.blocked, "nope"⟩ :=
  (c3_policy_gate
      { Pipeline.benignEnv with policy := fun _ => Pipeline.PolicyResult.reject "nope" }
      ⟨"e3b", "alice", 1, 995, [], "", "s"⟩ Pipeline.emptyState
      (by decide) (by decide) rfl (by decide) rfl (by decide)).1 "nope" (by decide) rfl

/-- C2: for a non-ephemeral event the stats step and the insert run inside
one atomic transaction, stats first; the one recognized secondary-index
conflict in the stats step is swallowed and the event inserted anyway; any
other stats failure aborts the whole transaction (nothing persisted); a
successful stats step persists both; and an insert failure rolls the stats
back. -/
theorem c2_transaction (env : Pipeline.Env) (e : Event) (s : Pipeline.State)
    (hEph : Pipeline.ephemeralKind e.kind = false) :
    ((s.events.any fun x => x.id = e.id) = false →
      env.statsOutcome e.id = Pipeline.StatsOutcome.conflict →
      Pipeline.storeEvent env e s = (none, { s with events := s.events ++ [e] })) ∧
    (env.statsOutcome e.id = Pipeline.StatsOutcome.fail →
      Pipeline.storeEvent env e s =
        (some ⟨Pipeline.ErrKind.error, "stats update failed"⟩, s)) ∧
    ((s.events.any fun x => x.id = e.id) = false →
      env.statsOutcome e.id = Pipeline.StatsOutcome.ok →
      Pipeline.storeEvent env e s =
        (none, { s with events := s.events ++ [e],
                        tables := Pipeline.statsTablesOf e s.events s.tables })) ∧
    ((s.events.any fun x => x.id = e.id) = true →
      env.statsOutcome e.id = Pipeline.StatsOutcome.ok →
      Pipeline.storeEvent env e s =
        (some ⟨Pipeline.ErrKind.error, "unique constraint violation"⟩, s)) := by
  refine ⟨?_, ?_, ?_, ?_⟩
  · intro hne hc
    unfold Pipeline.storeEvent
    rw [if_neg (by simp [hEph])]
    simp [Bind.bind, Except.bind, Pipeline.updateStatsU, hc, Pipeline.storeEventTx, hne]
  · intro hf
    unfold Pipeline.storeEvent
    rw [if_neg (by simp [hEph])]
    simp [Bind.bind, Except.bind, Pipeline.updateStatsU, hf]
  · intro hne hok
    unfold Pipeline.storeEvent
    rw [if_neg (by simp [hEph])]
    simp [Bind.bind, Except.bind, Pipeline.updateStatsU, hok, Pipeline.storeEventTx, hne]
  · intro hdup hok
    unfold Pipeline.storeEvent
    rw [if_neg (by simp [hEph])]
    simp [Bind.bind, Except.bind, Pipeline.updateStatsU, hok, Pipeline.storeEventTx, hdup]

/-- C2 witness: the transaction theorem applied at a concrete event whose
stats step hits the recognized conflict: the event is inserted anyway. -/
theorem c2_witness :
    Pipeline.storeEvent
        { Pipeline.benignEnv with statsOutcome := fun _ => Pipeline.StatsOutcome.conflict }
        ⟨"e2", "alice", 1, 995, [], "", "s"⟩ Pipeline.emptyState =
      (none, { Pipeline.emptyState with events := [⟨"e2", "alice", 1, 995, [], "", "s"⟩] }) :=
  (c2_transaction
      { Pipeline.benignEnv with statsOutcome := fun _ => Pipeline.StatsOutcome.conflict }
      ⟨"e2", "alice", 1, 995, [], "", "s"⟩ Pipeline.emptyState (by decide)).1 rfl rfl

/-- C4 (amended): for a fresh non-ephemeral event, live fan-out runs
concurrently with the persistence transaction inside the same Promise.all and
is not ordered after the durable commit: among the valid interleavings of the
two effect branches there is one where the delivery precedes the commit, and
one where it follows it. -/
theorem c4_fanout_unordered (env : Pipeline.Env) (e : Event)
    (hEph : Pipeline.ephemeralKind e.kind = false)
    (hF : Pipeline.isFresh env e = true) :
    (∃ bs, Pipeline.firstIdx Pipeline.PAction.deliver
        (Pipeline.mergeBy bs (Pipeline.storeEventActions e) (Pipeline.streamOutActions env e)) <
      Pipeline.firstIdx Pipeline.PAction.commit
        (Pipeline.mergeBy bs (Pipeline.storeEventActions e) (Pipeline.streamOutActions env e))) ∧
    (∃ bs, Pipeline.firstIdx Pipeline.PAction.commit
        (Pipeline.mergeBy bs (Pipeline.storeEventActions e) (Pipeline.streamOutActions env e)) <
      Pipeline.firstIdx Pipeline.PAction.deliver
        (Pipeline.mergeBy bs (Pipeline.storeEventActions e) (Pipeline.streamOutActions env e))) := by
  have hs : Pipeline.storeEventActions e =
      [Pipeline.PAction.stats, Pipeline.PAction.insert, Pipeline.PAction.commit] := by
    unfold Pipeline.storeEventActions
    rw [if_neg (by simp [hEph])]
  have ho : Pipeline.streamOutActions env e = [Pipeline.PAction.deliver] := by
    unfold Pipeline.streamOutActions
    rw [if_pos hF]
  refine ⟨⟨[false], ?_⟩, ⟨[true, true, true], ?_⟩⟩ <;>
    rw [hs, ho] <;> decide

/-- C4 counterexample: for a concrete fresh event there is a valid
interleaving of the persistence branch and the fan-out branch in which the
delivery to subscribers happens strictly before the transaction commit, so
fan-out is not ordered after the durable commit. -/
theorem c4_counterexample :
    Pipeline.mergeBy [false]
        (Pipeline.storeEventActions ⟨"e4", "alice", 1, 995, [], "", "s"⟩)
        (Pipeline.streamOutActions Pipeline.benignEnv ⟨"e4", "alice", 1, 995, [], "", "s"⟩) =
      [Pipeline.PAction.deliver, Pipeline.PAction.stats, Pipeline.PAction.insert,
        Pipeline.PAction.commit] ∧
    Pipeline.firstIdx Pipeline.PAction.deliver
        (Pipeline.mergeBy [false]
          (Pipeline.storeEventActions ⟨"e4", "alice", 1, 995, [], "", "s"⟩)
          (Pipeline.streamOutActions Pipeline.benignEnv ⟨"e4", "alice", 1, 995, [], "", "s"⟩)) <
      Pipeline.firstIdx Pipeline.PAction.commit
        (Pipeline.mergeBy [false]
          (Pipeline.storeEventActions ⟨"e4", "alice", 1, 995, [], "", "s"⟩)
          (Pipeline.streamOutActions Pipeline.benignEnv ⟨"e4", "alice", 1, 995, [], "", "s"⟩)) := by
  refine ⟨by decide, by decide⟩

/-- C4 witness: the unordered-fan-out theorem applied at a concrete event. -/
theorem c4_witness :
    (∃ bs, Pipeline.firstIdx Pipeline.PAction.deliver
        (Pipeline.mergeBy bs
          (Pipeline.storeEventActions ⟨"e4b", "alice", 1, 996, [], "", "s"⟩)
          (Pipeline.streamOutActions Pipeline.benignEnv ⟨"e4b", "alice", 1, 996, [], "", "s"⟩)) <
      Pipeline.firstIdx Pipeline.PAction.commit
        (Pipeline.mergeBy bs
          (Pipeline.storeEventActions ⟨"e4b", "alice", 1, 996, [], "", "s"⟩)
          (Pipeline.streamOutActions Pipeline.benignEnv ⟨"e4b", "alice", 1, 996, [], "", "s"⟩))) :=
  (c4_fanout_unordered Pipeline.benignEnv ⟨"e4b", "alice", 1, 996, [], "", "s"⟩
    (by decide) (by decide)).1

section AssocLemmas

variable {κ α : Type} [DecidableEq κ]

/-- Lookup after update at the same key. -/
theorem alGet_alSet_self (l : List (κ × α)) (k : κ) (v : α) :
    alGet (alSet l k v) k = some v := by
  induction l with
  | nil => simp [alSet, alGet]
  | cons p t ih =>
    by_cases h : p.1 = k
    · simp [alSet, alGet, h]
    · simp [alSet, alGet, h, ih]

/-- Lookup after update at another key. -/
theorem alGet_alSet_ne (l : List (κ × α)) (k k' : κ) (v : α) (h : k' ≠ k) :
    alGet (alSet l k v) k' = alGet l k' := by
  have h1 : ¬ (k = k') := fun hh => h hh.symm
  induction l with
  | nil => simp [alSet, alGet, h1]
  | cons p t ih =>
    by_cases hp : p.1 = k
    · have h2 : ¬ (p.1 = k') := by rw [hp]; exact h1
      simp only [alSet, if_pos hp]
      simp [alGet, h1, h2]
    · simp only [alSet, if_neg hp]
      simp only [alGet, ih]

/-- Lookup distributes over append. -/
theorem alGet_append (l l' : List (κ × α)) (k : κ) :
    alGet (l ++ l') k = match alGet l k with
      | some v => some v
      | none => alGet l' k := by
  induction l with
  | nil => simp [alGet]
  | cons p t ih =>
    by_cases h : p.1 = k
    · simp [alGet, h]
    · simp [alGet, h, ih]

/-- Update of an absent key appends. -/
theorem alSet_of_absent (l : List (κ × α)) (k : κ) (v : α) (h : alGet l k = none) :
    alSet l k v = l ++ [(k, v)] := by
  induction l with
  | nil => simp [alSet]
  | cons p t ih =>
    by_cases hp : p.1 = k
    · simp [alGet, hp] at h
    · simp only [alGet, if_neg hp] at h
      simp [alSet, hp, ih h]

/-- Deletion removes the key. -/
theorem alGet_alDel_self (l : List (κ × α)) (k : κ) :
    alGet (alDel l k) k = none := by
  induction l with
  | nil => simp [alDel, alGet]
  | cons p t ih =>
    by_cases h : p.1 = k
    · simpa [alDel, List.filter_cons, h] using ih
    · simpa [alDel, List.filter_cons, h, alGet] using ih

/-- Deletion keeps other keys. -/
theorem alGet_alDel_ne (l : List (κ × α)) (k k' : κ) (h : k' ≠ k) :
    alGet (alDel l k) k' = alGet l k' := by
  induction l with
  | nil => simp [alDel, alGet]
  | cons p t ih =>
    by_cases hp : p.1 = k
    · have h2 : ¬ (p.1 = k') := by rw [hp]; exact fun hh => h hh.symm
      show alGet ((p :: t).filter fun q => ¬ (q.1 = k)) k' = alGet (p :: t) k'
      rw [List.filter_cons, if_neg (by simp [hp])]
      rw [show alGet (p :: t) k' = alGet t k' from by simp [alGet, h2]]
      exact ih
    · show alGet ((p :: t).filter fun q => ¬ (q.1 = k)) k' = alGet (p :: t) k'
      rw [List.filter_cons, if_pos (by simp [hp])]
      by_cases hp' : p.1 = k'
      · simp [alGet, hp']
      · simp only [alGet, if_neg hp']
        simpa [alDel] using ih

/-- No entry of a deleted key survives. -/
theorem alDel_filter_key (l : List (κ × α)) (k : κ) :
    (alDel l k).filter (fun p => p.1 = k) = [] := by
  rw [List.filter_eq_nil_iff]
  intro p hp
  have := List.of_mem_filter hp
  simpa using this

/-- An entry of an updated list is the new pair or an old entry. -/
theorem mem_alSet (l : List (κ × α)) (k : κ) (v : α) (p : κ × α)
    (h : p ∈ alSet l k v) : p = (k, v) ∨ p ∈ l := by
  induction l with
  | nil => simpa [alSet] using h
  | cons q t ih =>
    by_cases hq : q.1 = k
    · simp only [alSet, if_pos hq, List.mem_cons] at h
      rcases h with h | h
      · exact Or.inl h
      · exact Or.inr (List.mem_cons_of_mem _ h)
    · simp only [alSet, if_neg hq, List.mem_cons] at h
      rcases h with h | h
      · exact Or.inr (by simp [h])
      · rcases ih h with h' | h'
        · exact Or.inl h'
        · exact Or.inr (List.mem_cons_of_mem _ h')

/-- An entry of a deletion result is an old entry with another key. -/
theorem mem_alDel (l : List (κ × α)) (k : κ) (p : κ × α)
    (h : p ∈ alDel l k) : p ∈ l ∧ ¬ (p.1 = k) := by
  refine ⟨List.mem_of_mem_filter h, ?_⟩
  have := List.of_mem_filter h
  simpa using this

end AssocLemmas

namespace Stats

/-- One merge-upsert step adds the row to the matching key and leaves every
other key alone (followers column). -/
theorem followersOfL_upsert (l : List (Option String × AuthorStatsRow))
    (kv : Option String × AuthorStatsRow) (k : Option String) :
    followersOfL (authorUpsertMerge l kv) k =
      followersOfL l k + (if k = kv.1 then kv.2.followers_count else 0) := by
  obtain ⟨k1, r1⟩ := kv
  by_cases h : k = k1
  · subst h
    unfold authorUpsertMerge followersOfL
    cases hg : alGet l k with
    | some old => simp [alGet_alSet_self, mergeAuthorRow, hg]
    | none => simp [alGet_append, hg, alGet]
  · unfold authorUpsertMerge followersOfL
    cases hg : alGet l k1 with
    | some old => simp [alGet_alSet_ne l k1 k _ h, if_neg h]
    | none =>
      rw [alGet_append]
      cases hk : alGet l k with
      | some v => simp [if_neg h]
      | none => simp [alGet, if_neg h, Ne.symm h]

/-- One merge-upsert step, following column. -/
theorem followingOfL_upsert (l : List (Option String × AuthorStatsRow))
    (kv : Option String × AuthorStatsRow) (k : Option String) :
    followingOfL (authorUpsertMerge l kv) k =
      followingOfL l k + (if k = kv.1 then kv.2.following_count else 0) := by
  obtain ⟨k1, r1⟩ := kv
  by_cases h : k = k1
  · subst h
    unfold authorUpsertMerge followingOfL
    cases hg : alGet l k with
    | some old => simp [alGet_alSet_self, mergeAuthorRow, hg]
    | none => simp [alGet_append, hg, alGet]
  · unfold authorUpsertMerge followingOfL
    cases hg : alGet l k1 with
    | some old => simp [alGet_alSet_ne l k1 k _ h, if_neg h]
    | none =>
      rw [alGet_append]
      cases hk : alGet l k with
      | some v => simp [if_neg h]
      | none => simp [alGet, if_neg h, Ne.symm h]

/-- Applying a batch of merge upserts adds, at every key, the sum of the
follower deltas of the rows carrying that key. -/
theorem followersOfL_foldl (vals : List (Option String × AuthorStatsRow))
    (l : List (Option String × AuthorStatsRow)) (k : Option String) :
    followersOfL (vals.foldl authorUpsertMerge l) k =
      followersOfL l k +
        ((vals.filter fun kv => kv.1 = k).map fun kv => kv.2.followers_count).sum := by
  induction vals generalizing l with
  | nil => simp
  | cons kv vs ih =>
    rw [List.foldl_cons, ih, followersOfL_upsert]
    by_cases h : kv.1 = k
    · rw [List.filter_cons, if_pos (by simp [h])]
      simp [h]
      omega
    · have hkk : ¬ (k = kv.1) := fun hh => h hh.symm
      rw [List.filter_cons, if_neg hkk]
      simp [h]

/-- Applying a batch of merge upserts whose rows all carry a zero following
delta leaves the following count unchanged at every key. -/
theorem followingOfL_foldl_zero (vals : List (Option String × AuthorStatsRow))
    (l : List (Option String × AuthorStatsRow)) (k : Option String)
    (hz : ∀ kv ∈ vals, kv.2.following_count = 0) :
    followingOfL (vals.foldl authorUpsertMerge l) k = followingOfL l k := by
  induction vals generalizing l with
  | nil => simp
  | cons kv vs ih =>
    rw [List.foldl_cons, ih _ (fun x hx => hz x (List.mem_cons_of_mem _ hx)),
      followingOfL_upsert]
    rw [hz kv (List.mem_cons_self _ _)]
    simp

end Stats

namespace Stats

/-- The author part of a diff list distributes over append. -/
theorem authorDiffsOf_append (a b : List StatDiff) :
    authorDiffsOf (a ++ b) = authorDiffsOf a ++ authorDiffsOf b := by
  unfold authorDiffsOf
  exact List.filterMap_append a b _

/-- The author part of a list of author diffs built over keys. -/
theorem authorDiffsOf_map_author (l : List (Option String)) (st : AuthorStat) (d : Int) :
    authorDiffsOf (l.map fun pk => StatDiff.author pk st d) =
      l.map fun pk => (pk, st, d) := by
  induction l with
  | nil => rfl
  | cons a t ih =>
    simp only [List.map_cons, authorDiffsOf, List.filterMap_cons] at ih ⊢
    rw [ih]

/-- A list of author diffs has an empty event part. -/
theorem eventDiffsOf_map_author (l : List (Option String)) (st : AuthorStat) (d : Int) :
    eventDiffsOf (l.map fun pk => StatDiff.author pk st d) = [] := by
  induction l with
  | nil => rfl
  | cons a t ih =>
    simp only [List.map_cons, eventDiffsOf, List.filterMap_cons] at ih ⊢
    exact ih

/-- The author part of a follow diff is the added pubkeys with delta 1
followed by the removed pubkeys with delta -1. -/
theorem authorDiffsOf_getFollowDiff (e : Event) (prev : Option Event) :
    authorDiffsOf (getFollowDiff e prev) =
      ((((pTagValues e.tags).dedup).filter fun pk =>
          ¬ pk ∈ (pTagValues (match prev with | some p => p.tags | none => [])).dedup).map
        fun pk => (pk, AuthorStat.followers_count, (1 : Int))) ++
      ((((pTagValues (match prev with | some p => p.tags | none => [])).dedup).filter fun pk =>
          ¬ pk ∈ (pTagValues e.tags).dedup).map
        fun pk => (pk, AuthorStat.followers_count, (-1 : Int))) := by
  unfold getFollowDiff
  rw [authorDiffsOf_append, authorDiffsOf_map_author, authorDiffsOf_map_author]

/-- The event part of a diff list distributes over append. -/
theorem eventDiffsOf_append (a b : List StatDiff) :
    eventDiffsOf (a ++ b) = eventDiffsOf a ++ eventDiffsOf b := by
  unfold eventDiffsOf
  exact List.filterMap_append a b _

/-- A follow diff carries no event_stats part. -/
theorem eventDiffsOf_getFollowDiff (e : Event) (prev : Option Event) :
    eventDiffsOf (getFollowDiff e prev) = [] := by
  unfold getFollowDiff
  rw [eventDiffsOf_append, eventDiffsOf_map_author, eventDiffsOf_map_author]
  rfl

/-- Keyed filter of a key-tagged map over a list without the key. -/
theorem filter_map_key_nil {α : Type} (l : List (Option String)) (row : α)
    (pk : Option String) (hout : pk ∉ l) :
    ((l.map fun q => (q, row)).filter fun kv => kv.1 = pk) = [] := by
  induction l with
  | nil => simp
  | cons a t ih =>
    have ha : ¬ (a = pk) := fun hh => hout (by simp [hh])
    simp only [List.map_cons, List.filter_cons]
    rw [if_neg (by simpa using ha)]
    exact ih (fun hh => hout (List.mem_cons_of_mem _ hh))

/-- Keyed filter of a key-tagged map over a duplicate-free list containing
the key: exactly the one pair survives. -/
theorem filter_map_key_eq {α : Type} (l : List (Option String)) (row : α)
    (pk : Option String) (hnd : l.Nodup) (hin : pk ∈ l) :
    ((l.map fun q => (q, row)).filter fun kv => kv.1 = pk) = [(pk, row)] := by
  induction l with
  | nil => simp at hin
  | cons a t ih =>
    rcases List.mem_cons.mp hin with h | h
    · have hnt : pk ∉ t := by
        intro hmem
        rw [h] at hmem
        exact (List.nodup_cons.mp hnd).1 hmem
      simp only [List.map_cons, List.filter_cons]
      rw [if_pos (by simp [h])]
      rw [filter_map_key_nil t row pk hnt]
      simp [h]
    · have ha : ¬ (a = pk) := by
        intro hh
        subst hh
        exact (List.nodup_cons.mp hnd).1 h
      simp only [List.map_cons, List.filter_cons]
      rw [if_neg (by simpa using ha)]
      exact ih (List.nodup_cons.mp hnd).2 h

/-- The following-count replacement sets the author row to the unique p-tag
count of the new event, whatever was stored before. -/
theorem followingOf_updateFollowingCountQuery (e : Event) (t : Tables) :
    followingOf (updateFollowingCountQuery e t) (some e.pubkey) =
      followingCountOf e.tags := by
  unfold updateFollowingCountQuery followingOf followingOfL
  cases hg : alGet t.author_stats (some e.pubkey) with
  | some old => simp [alGet_alSet_self]
  | none => simp [alGet_append, hg, alGet]

/-- The following-count replacement never changes a followers count. -/
theorem followersOf_updateFollowingCountQuery (e : Event) (t : Tables)
    (pk : Option String) :
    followersOf (updateFollowingCountQuery e t) pk = followersOf t pk := by
  unfold updateFollowingCountQuery followersOf followersOfL
  cases hg : alGet t.author_stats (some e.pubkey) with
  | some old =>
    by_cases h : pk = some e.pubkey
    · rw [h, alGet_alSet_self, hg]
      rfl
    · rw [alGet_alSet_ne _ _ _ _ h]
  | none =>
    by_cases h : pk = some e.pubkey
    · rw [h, alGet_append, hg]
      simp [alGet]
    · rw [alGet_append]
      cases hk : alGet t.author_stats pk with
      | some v => simp
      | none =>
        have hne : ¬ (some e.pubkey = pk) := fun hh => h hh.symm
        simp [alGet, hne]

/-- The following-count replacement leaves event_stats alone. -/
theorem event_stats_updateFollowingCountQuery (e : Event) (t : Tables) :
    (updateFollowingCountQuery e t).event_stats = t.event_stats := rfl

end Stats

/-- C7: for a follow-list event with previous version p, every pubkey in the
new unique p-tag set but not the previous one gains one follower, every
pubkey only in the previous set loses one, and the following count of the
author is replaced by the unique p-tag count of the new event alone. -/
theorem c7_follow_diff (e p : Event) (t : Stats.Tables) (hk : e.kind = 3) :
    (∀ pk, pk ∈ (Stats.pTagValues e.tags).dedup →
        pk ∉ (Stats.pTagValues p.tags).dedup →
      Stats.followersOf
          (Stats.authorStatsQuery
            (Stats.authorDiffsOf (Stats.getFollowDiff e (some p))) t) pk =
        Stats.followersOf t pk + 1) ∧
    (∀ pk, pk ∈ (Stats.pTagValues p.tags).dedup →
        pk ∉ (Stats.pTagValues e.tags).dedup →
      Stats.followersOf
          (Stats.authorStatsQuery
            (Stats.authorDiffsOf (Stats.getFollowDiff e (some p))) t) pk =
        Stats.followersOf t pk - 1) ∧
    Stats.followingOf (Stats.updateFollowingCountQuery e t) (some e.pubkey) =
      Stats.followingCountOf e.tags := by
  have hrw1 : ((fun d : Option String × Stats.AuthorStat × Int =>
      (d.1, Stats.authorDiffRow d.2.1 d.2.2)) ∘
        fun pk => (pk, Stats.AuthorStat.followers_count, (1 : Int))) =
      fun q => (q, Stats.authorDiffRow Stats.AuthorStat.followers_count 1) := rfl
  have hrw2 : ((fun d : Option String × Stats.AuthorStat × Int =>
      (d.1, Stats.authorDiffRow d.2.1 d.2.2)) ∘
        fun pk => (pk, Stats.AuthorStat.followers_count, (-1 : Int))) =
      fun q => (q, Stats.authorDiffRow Stats.AuthorStat.followers_count (-1)) := rfl
  refine ⟨?_, ?_, Stats.followingOf_updateFollowingCountQuery e t⟩
  · intro pk hin hout
    show Stats.followersOfL _ pk = _
    unfold Stats.authorStatsQuery
    rw [Stats.authorDiffsOf_getFollowDiff]
    simp only [List.map_append, List.map_map, hrw1, hrw2]
    rw [Stats.followersOfL_foldl, List.filter_append]
    rw [Stats.filter_map_key_eq _ _ pk
      (List.Nodup.filter _ (List.nodup_dedup _))
      (List.mem_filter.mpr ⟨hin, by simpa using hout⟩)]
    rw [Stats.filter_map_key_nil _ _ pk
      (fun hmem => by
        have hc := (List.mem_filter.mp hmem).2
        simp at hc
        exact hc (List.mem_dedup.mp hin))]
    simp [Stats.authorDiffRow, Stats.followersOf]
  · intro pk hin hout
    show Stats.followersOfL _ pk = _
    unfold Stats.authorStatsQuery
    rw [Stats.authorDiffsOf_getFollowDiff]
    simp only [List.map_append, List.map_map, hrw1, hrw2]
    rw [Stats.followersOfL_foldl, List.filter_append]
    rw [Stats.filter_map_key_nil _ _ pk
      (fun hmem => hout (List.mem_filter.mp hmem).1)]
    rw [Stats.filter_map_key_eq _ _ pk
      (List.Nodup.filter _ (List.nodup_dedup _))
      (List.mem_filter.mpr ⟨hin, by simpa using hout⟩)]
    simp [Stats.authorDiffRow, Stats.followersOf]
    omega

/-- C7 witness: the follow-diff theorem at a concrete pair of follow lists:
previous list follows bob and carol, the new list follows bob and dan; dan
gains a follower, carol loses one, and the author now follows 2 pubkeys. -/
theorem c7_witness :
    Stats.followersOf
        (Stats.authorStatsQuery
          (Stats.authorDiffsOf (Stats.getFollowDiff
            ⟨"e7", "alice", 3, 995, [["p", "bob"], ["p", "dan"]], "", "s"⟩
            (some ⟨"e7p", "alice", 3, 990, [["p", "bob"], ["p", "carol"]], "", "s"⟩)))
          ⟨[], []⟩) (some "dan") = 1 ∧
    Stats.followersOf
        (Stats.authorStatsQuery
          (Stats.authorDiffsOf (Stats.getFollowDiff
            ⟨"e7", "alice", 3, 995, [["p", "bob"], ["p", "dan"]], "", "s"⟩
            (some ⟨"e7p", "alice", 3, 990, [["p", "bob"], ["p", "carol"]], "", "s"⟩)))
          ⟨[], []⟩) (some "carol") = -1 ∧
    Stats.followingOf
        (Stats.updateFollowingCountQuery
          ⟨"e7", "alice", 3, 995, [["p", "bob"], ["p", "dan"]], "", "s"⟩ ⟨[], []⟩)
        (some "alice") = 2 := by
  have h := c7_follow_diff
    ⟨"e7", "alice", 3, 995, [["p", "bob"], ["p", "dan"]], "", "s"⟩
    ⟨"e7p", "alice", 3, 990, [["p", "bob"], ["p", "carol"]], "", "s"⟩
    ⟨[], []⟩ rfl
  refine ⟨?_, ?_, ?_⟩
  · have := h.1 (some "dan") (by decide) (by decide)
    rw [this]
    rfl
  · have := h.2.1 (some "carol") (by decide) (by decide)
    rw [this]
    rfl
  · have := h.2.2
    rw [this]
    rfl

/-- C9: a kind 3 event whose author has no prior kind 3 event in the backing
store crashes updateStats: maybeSetPrev destructures the empty query result
and dereferences created_at of undefined, so the stats update fails with a
TypeError instead of tolerating the absent previous version. -/
theorem c9_missing_prev_crash :
    Stats.updateStats [] ⟨⟨"e9", "alice", 3, 995, [["p", "bob"]], "", "s"⟩, none⟩ ⟨[], []⟩ =
      Except.error Stats.TSErr.typeError := by
  rfl

namespace Stats

/-- For a kind 3 event the computed diffs are the follow diff. -/
theorem getStatsDiff_kind3 (ep : EventP) (hk : ep.event.kind = 3) :
    getStatsDiff ep = getFollowDiff ep.event ep.prev := by
  unfold getStatsDiff
  rw [hk]

/-- The author part of a follow diff against no previous version: every
unique p-tag pubkey of the new event gains a follower. -/
theorem authorDiffsOf_getFollowDiff_none (e : Event) :
    authorDiffsOf (getFollowDiff e none) =
      ((pTagValues e.tags).dedup).map
        fun pk => (pk, AuthorStat.followers_count, (1 : Int)) := by
  rw [authorDiffsOf_getFollowDiff]
  simp [pTagValues]

end Stats

/-- C10: a kind 3 event always overwrites the following count of its author
with the unique p-tag count of that event, even when the backing store
already holds a newer kind 3 event from the same author; the stored list is
used for the followers diff only when it is older than the incoming event,
so here every unique p-tag pubkey of the incoming event gains a follower. -/
theorem c10_following_replacement (store : List Event) (e N : Event) (t : Stats.Tables)
    (hk : e.kind = 3)
    (hN : (Stats.getFilters store [e.kind] [e.pubkey] 1).head? = some N)
    (hNewer : e.created_at ≤ N.created_at) :
    ∃ t1, Stats.updateStats store ⟨e, none⟩ t = Except.ok t1 ∧
      Stats.followingOf t1 (some e.pubkey) = Stats.followingCountOf e.tags ∧
      (∀ pk ∈ (Stats.pTagValues e.tags).dedup,
        Stats.followersOf t1 pk = Stats.followersOf t pk + 1) ∧
      t1.event_stats = t.event_stats := by
  have hms : Stats.maybeSetPrev store ⟨e, none⟩ = Except.ok ⟨e, none⟩ := by
    unfold Stats.maybeSetPrev
    rw [if_neg (by simp)]
    rw [hN]
    have hlt : ¬ N.created_at < e.created_at := by omega
    simp [hlt]
  unfold Stats.updateStats
  rw [if_pos hk]
  simp only [hms, Bind.bind, Except.bind, pure, Except.pure]
  rw [Stats.getStatsDiff_kind3 _ hk]
  simp only [Stats.eventDiffsOf_getFollowDiff, List.isEmpty_nil, if_pos rfl]
  rw [if_pos trivial, List.append_nil, Stats.authorDiffsOf_getFollowDiff_none]
  have hrw1 : ((fun d : Option String × Stats.AuthorStat × Int =>
      (d.1, Stats.authorDiffRow d.2.1 d.2.2)) ∘
        fun pk => (pk, Stats.AuthorStat.followers_count, (1 : Int))) =
      fun q => (q, Stats.authorDiffRow Stats.AuthorStat.followers_count 1) := rfl
  by_cases hu : (Stats.pTagValues e.tags).dedup = []
  · rw [hu]
    simp only [List.map_nil, List.isEmpty_nil, if_pos rfl, List.append_nil]
    refine ⟨_, rfl, ?_, ?_, ?_⟩
    · simpa [List.foldl] using Stats.followingOf_updateFollowingCountQuery e t
    · intro pk hpk
      simp at hpk
    · rfl
  · have hne : ¬ (((Stats.pTagValues e.tags).dedup.map
        fun pk => (pk, Stats.AuthorStat.followers_count, (1 : Int))).isEmpty = true) := by
      cases h' : (Stats.pTagValues e.tags).dedup with
      | nil => exact absurd h' hu
      | cons a l => simp [h']
    rw [if_neg hne]
    refine ⟨_, rfl, ?_, ?_, ?_⟩
    · show Stats.followingOf
        (Stats.authorStatsQuery _ (Stats.updateFollowingCountQuery e t)) _ = _
      unfold Stats.authorStatsQuery Stats.followingOf
      simp only [List.map_map, hrw1]
      rw [Stats.followingOfL_foldl_zero _ _ _ (by
        intro kv hkv
        obtain ⟨q, hq, hkv⟩ := List.mem_map.mp hkv
        rw [← hkv]
        rfl)]
      exact Stats.followingOf_updateFollowingCountQuery e t
    · intro pk hpk
      show Stats.followersOfL _ pk = _
      simp only [List.singleton_append, List.foldl_cons, List.foldl_nil]
      unfold Stats.authorStatsQuery
      simp only [List.map_map, hrw1]
      rw [Stats.followersOfL_foldl]
      rw [Stats.filter_map_key_eq _ _ pk (List.nodup_dedup _) hpk]
      have hbase2 : Stats.followersOfL
          (Stats.updateFollowingCountQuery e t).author_stats pk =
          Stats.followersOfL t.author_stats pk :=
        Stats.followersOf_updateFollowingCountQuery e t pk
      rw [hbase2]
      simp [Stats.authorDiffRow, Stats.followersOf]
    · rfl

/-- C10 witness: the replacement theorem applied where the store already
holds a newer follow list of the author: the older incoming event still sets
following_count to its own unique p-tag count. -/
theorem c10_witness :
    ∃ t1, Stats.updateStats [⟨"n10", "alice", 3, 999, [["p", "zed"]], "", "s"⟩]
        ⟨⟨"e10", "alice", 3, 995, [["p", "bob"]], "", "s"⟩, none⟩ ⟨[], []⟩ =
        Except.ok t1 ∧
      Stats.followingOf t1 (some "alice") =
        Stats.followingCountOf [["p", "bob"]] ∧
      (∀ pk ∈ (Stats.pTagValues [["p", "bob"]]).dedup,
        Stats.followersOf t1 pk = Stats.followersOf ⟨[], []⟩ pk + 1) ∧
      t1.event_stats = (⟨[], []⟩ : Stats.Tables).event_stats :=
  c10_following_replacement [⟨"n10", "alice", 3, 999, [["p", "zed"]], "", "s"⟩]
    ⟨"e10", "alice", 3, 995, [["p", "bob"]], "", "s"⟩
    ⟨"n10", "alice", 3, 999, [["p", "zed"]], "", "s"⟩ ⟨[], []⟩
    rfl rfl (by decide)

section AssocLemmas2

variable {κ α : Type} [DecidableEq κ]

theorem alGet_mem (l : List (κ × α)) (k : κ) (v : α) (h : alGet l k = some v) :
    (k, v) ∈ l := by
  induction l with
  | nil => simp [alGet] at h
  | cons p t ih =>
    by_cases hp : p.1 = k
    · simp only [alGet, if_pos hp] at h
      have hv : p.2 = v := by simpa using h
      have heq : (k, v) = p := by
        obtain ⟨a, b⟩ := p
        simp only [Prod.mk.injEq]
        exact ⟨by simpa using hp.symm, by simpa using hv.symm⟩
      rw [heq]
      exact List.mem_cons_self _ _
    · simp only [alGet, if_neg hp] at h
      exact List.mem_cons_of_mem _ (ih h)

theorem alGet_none_all (l : List (κ × α)) (k : κ) (h : alGet l k = none) :
    ∀ q ∈ l, ¬ (q.1 = k) := by
  induction l with
  | nil => simp
  | cons p t ih =>
    by_cases hp : p.1 = k
    · simp [alGet, hp] at h
    · simp only [alGet, if_neg hp] at h
      intro q hq
      rcases List.mem_cons.mp hq with hq | hq
      · rw [hq]; exact hp
      · exact ih h q hq

theorem alGet_none_filter (l : List (κ × α)) (k : κ) (h : alGet l k = none) :
    l.filter (fun q => q.1 = k) = [] := by
  rw [List.filter_eq_nil_iff]
  intro q hq
  simpa using alGet_none_all l k h q hq

theorem alSet_keys_nodup (l : List (κ × α)) (k : κ) (v : α)
    (hnd : (l.map (·.1)).Nodup) : ((alSet l k v).map (·.1)).Nodup := by
  induction l with
  | nil => simp [alSet]
  | cons p t ih =>
    by_cases hp : p.1 = k
    · simp only [alSet, if_pos hp]
      simpa [← hp] using hnd
    · simp only [alSet, if_neg hp]
      simp only [List.map_cons, List.nodup_cons] at hnd ⊢
      refine ⟨?_, ih hnd.2⟩
      intro hmem
      obtain ⟨q, hq, hq1⟩ := List.mem_map.mp hmem
      rcases mem_alSet t k v q hq with h' | h'
      · rw [h'] at hq1
        exact hp hq1.symm
      · exact hnd.1 (List.mem_map.mpr ⟨q, h', hq1⟩)

theorem mem_alSet_nodup (l : List (κ × α)) (k : κ) (v : α) (p : κ × α)
    (hnd : (l.map (·.1)).Nodup) (h : p ∈ alSet l k v) :
    p = (k, v) ∨ (p ∈ l ∧ ¬ (p.1 = k)) := by
  induction l with
  | nil =>
    left
    simpa [alSet] using h
  | cons q t ih =>
    simp only [List.map_cons, List.nodup_cons] at hnd
    by_cases hq : q.1 = k
    · simp only [alSet, if_pos hq, List.mem_cons] at h
      rcases h with h | h
      · exact Or.inl h
      · right
        refine ⟨List.mem_cons_of_mem _ h, ?_⟩
        intro hpk
        exact hnd.1 (List.mem_map.mpr ⟨p, h, by rw [hpk, hq]⟩)
    · simp only [alSet, if_neg hq, List.mem_cons] at h
      rcases h with h | h
      · right
        exact ⟨by simp [h], by rw [h]; exact hq⟩
      · rcases ih hnd.2 h with h' | h'
        · exact Or.inl h'
        · exact Or.inr ⟨List.mem_cons_of_mem _ h'.1, h'.2⟩

end AssocLemmas2

namespace Subs

theorem sub_of_present (st : Store) (sock : Nat) (id : String) (subs : List (String × Nat))
    (hsome : alGet st.store sock = some subs) :
    sub st sock id =
      ({ store := alSet (alSet st.store sock (alDel subs id)) sock
            (alDel subs id ++ [(id, st.nextToken)]),
         closed := (match alGet subs id with
           | some tok => tok :: st.closed
           | none => st.closed),
         nextToken := st.nextToken + 1 }, st.nextToken) := by
  unfold sub unsub
  rw [if_pos (by simp [hsome])]
  simp only [hsome, alGet_alSet_self, Option.getD_some]
  rw [alSet_of_absent _ _ _ (alGet_alDel_self subs id)]

theorem sub_of_absent (st : Store) (sock : Nat) (id : String)
    (hnone : alGet st.store sock = none) :
    sub st sock id =
      ({ store := alSet (alSet (alSet st.store sock []) sock []) sock [(id, st.nextToken)],
         closed := st.closed,
         nextToken := st.nextToken + 1 }, st.nextToken) := by
  unfold sub unsub
  rw [if_neg (by simp [hnone])]
  simp only [alGet_alSet_self, Option.getD_some]
  rw [show alDel ([] : List (String × Nat)) id = [] from rfl]
  rw [show alSet ([] : List (String × Nat)) id st.nextToken = [(id, st.nextToken)] from rfl]
  simp [alGet]

/-- One subscribe step, characterized: the socket map ends in the fresh
token under the id, preceded by entries of other ids taken from the old
socket map; the token counter advances; the closed set picks up the prior
subscription under that id when there was one; entries of other sockets are
untouched. -/
theorem sub_shape (st : Store) (sock : Nat) (id : String)
    (hnd : (st.store.map (·.1)).Nodup) :
    ∃ D, alGet (sub st sock id).1.store sock = some (D ++ [(id, st.nextToken)]) ∧
      alGet D id = none ∧
      (sub st sock id).1.nextToken = st.nextToken + 1 ∧
      (sub st sock id).2 = st.nextToken ∧
      (((sub st sock id).1.store).map (·.1)).Nodup ∧
      (∀ q ∈ D, ∃ subs, (sock, subs) ∈ st.store ∧ q ∈ subs) ∧
      (∀ subs tokx, alGet st.store sock = some subs → alGet subs id = some tokx →
        tokx ∈ (sub st sock id).1.closed) ∧
      (∀ p ∈ (sub st sock id).1.store,
        p = (sock, D ++ [(id, st.nextToken)]) ∨ (p ∈ st.store ∧ ¬ p.1 = sock)) := by
  cases hg : alGet st.store sock with
  | some subs =>
    rw [sub_of_present st sock id subs hg]
    refine ⟨alDel subs id, ?_, alGet_alDel_self subs id, rfl, rfl, ?_, ?_, ?_, ?_⟩
    · simp only []
      rw [alGet_alSet_self]
    · exact alSet_keys_nodup _ _ _ (alSet_keys_nodup _ _ _ hnd)
    · intro q hq
      exact ⟨subs, alGet_mem _ _ _ hg, (mem_alDel _ _ _ hq).1⟩
    · intro subs2 tokx hsubs2 htok
      have hse : subs = subs2 := by simpa using hsubs2
      subst hse
      simp only [htok]
      exact List.mem_cons_self _ _
    · intro p hp
      rcases mem_alSet_nodup _ _ _ _ (alSet_keys_nodup _ _ _ hnd) hp with h | h
      · exact Or.inl h
      · rcases mem_alSet_nodup _ _ _ _ hnd h.1 with h' | h'
        · exact absurd (by rw [h']) h.2
        · exact Or.inr ⟨h'.1, h.2⟩
  | none =>
    rw [sub_of_absent st sock id hg]
    refine ⟨[], ?_, rfl, rfl, rfl, ?_, ?_, ?_, ?_⟩
    · simp only [List.nil_append]
      rw [alGet_alSet_self]
    · exact alSet_keys_nodup _ _ _ (alSet_keys_nodup _ _ _ (alSet_keys_nodup _ _ _ hnd))
    · intro q hq
      simp at hq
    · intro subs2 tokx hsubs2 htok
      simp at hsubs2
    · intro p hp
      rcases mem_alSet_nodup _ _ _ _
          (alSet_keys_nodup _ _ _ (alSet_keys_nodup _ _ _ hnd)) hp with h | h
      · exact Or.inl (by simpa using h)
      · rcases mem_alSet_nodup _ _ _ _ (alSet_keys_nodup _ _ _ hnd) h.1 with h' | h'
        · exact absurd (by rw [h']) h.2
        · rcases mem_alSet_nodup _ _ _ _ hnd h'.1 with h'' | h''
          · exact absurd (by rw [h'']) h.2
          · exact Or.inr ⟨h''.1, h.2⟩

end Subs

/-- C8: subscribing twice with the same connection and subscription id, on a
well-formed store (unique socket keys, tokens below the counter), leaves
exactly one live subscription under that id (the second one); the first
subscription is closed, differs from the second, and is matched to no event
by the store whatever the match predicate says, so it receives no further
events. -/
theorem c8_subscribe_replace (st0 : Subs.Store) (socket : Nat) (id : String)
    (hwf : ∀ p ∈ st0.store, ∀ q ∈ p.2, q.2 < st0.nextToken)
    (hnd : (st0.store.map (·.1)).Nodup) :
    (((alGet (Subs.sub (Subs.sub st0 socket id).1 socket id).1.store socket).getD []).filter
        (fun q => q.1 = id)) = [(id, (Subs.sub (Subs.sub st0 socket id).1 socket id).2)] ∧
    (Subs.sub st0 socket id).2 ∈ (Subs.sub (Subs.sub st0 socket id).1 socket id).1.closed ∧
    (Subs.sub st0 socket id).2 ≠ (Subs.sub (Subs.sub st0 socket id).1 socket id).2 ∧
    (∀ mp, (Subs.sub st0 socket id).2 ∉
        Subs.matchesAll (Subs.sub (Subs.sub st0 socket id).1 socket id).1 mp) := by
  obtain ⟨D1, hm1, hD1id, hnt1, htok1, hnd1, hD1src, hclosed1, hdecomp1⟩ :=
    Subs.sub_shape st0 socket id hnd
  have hF3 : ∀ p ∈ (Subs.sub st0 socket id).1.store, ∀ q ∈ p.2,
      q.2 = st0.nextToken → (p.1 = socket ∧ q.1 = id) := by
    intro p hp q hq hqt
    rcases hdecomp1 p hp with h | h
    · subst h
      rcases List.mem_append.mp hq with h' | h'
      · obtain ⟨subs, hsubs, hqsubs⟩ := hD1src q h'
        have := hwf _ hsubs q hqsubs
        omega
      · have hqe : q = (id, st0.nextToken) := by simpa using h'
        exact ⟨rfl, by rw [hqe]⟩
    · have := hwf p h.1 q hq
      omega
  obtain ⟨D2, hm2, hD2id, hnt2, htok2, hnd2, hD2src, hclosed2, hdecomp2⟩ :=
    Subs.sub_shape (Subs.sub st0 socket id).1 socket id hnd1
  refine ⟨?_, ?_, ?_, ?_⟩
  · rw [hm2]
    simp only [Option.getD_some]
    rw [List.filter_append, alGet_none_filter D2 id hD2id, htok2]
    simp
  · rw [htok1]
    refine hclosed2 (D1 ++ [(id, st0.nextToken)]) st0.nextToken hm1 ?_
    rw [alGet_append, hD1id]
    simp [alGet]
  · rw [htok1, htok2, hnt1]
    omega
  · intro mp hmem
    obtain ⟨p, hp, htokp⟩ := List.mem_flatMap.mp hmem
    have htokp2 : (Subs.sub st0 socket id).2 ∈ p.2.map (·.2) :=
      List.mem_of_mem_filter htokp
    obtain ⟨q, hq, hq2⟩ := List.mem_map.mp htokp2
    rw [htok1] at hq2
    rcases hdecomp2 p hp with h | h
    · subst h
      rcases List.mem_append.mp hq with h' | h'
      · obtain ⟨subs, hsubs, hqsubs⟩ := hD2src q h'
        have hqid := (hF3 _ hsubs q hqsubs hq2).2
        exact (alGet_none_all D2 id hD2id q h') hqid
      · have hqe : q = (id, (Subs.sub st0 socket id).1.nextToken) := by simpa using h'
        rw [hqe] at hq2
        rw [hnt1] at hq2
        omega
    · exact h.2 (hF3 p h.1 q hq hq2).1

/-- C8 witness: the subscription-replace theorem applied on the empty store:
after two subscribes of (socket 1, id sub1), only the second token is
registered under the id, and the first token is closed and unmatched. -/
theorem c8_witness :
    (((alGet (Subs.sub (Subs.sub ⟨[], [], 0⟩ 1 "sub1").1 1 "sub1").1.store 1).getD []).filter
        (fun q => q.1 = "sub1")) =
      [("sub1", (Subs.sub (Subs.sub ⟨[], [], 0⟩ 1 "sub1").1 1 "sub1").2)] ∧
    (Subs.sub ⟨[], [], 0⟩ 1 "sub1").2 ∈
      (Subs.sub (Subs.sub ⟨[], [], 0⟩ 1 "sub1").1 1 "sub1").1.closed ∧
    (Subs.sub ⟨[], [], 0⟩ 1 "sub1").2 ∉
      Subs.matchesAll (Subs.sub (Subs.sub ⟨[], [], 0⟩ 1 "sub1").1 1 "sub1").1
        (fun _ => true) :=
  have h := c8_subscribe_replace ⟨[], [], 0⟩ 1 "sub1" (by simp) (by simp)
  ⟨h.1, h.2.1, h.2.2.2 (fun _ => true)⟩

namespace Pipeline

theorem head_mem_take (l : List String) (id : String) (h : l.head? = some id) :
    id ∈ l.take 1000 := by
  cases l with
  | nil => simp at h
  | cons a t =>
    have ha : a = id := by simpa using h
    subst ha
    show a ∈ a :: t.take 999
    exact List.mem_cons_self _ _

theorem head_mem_take2 (l : List String) (x id : String) (h : l.head? = some id) :
    id ∈ (x :: l).take 1000 := by
  cases l with
  | nil => simp at h
  | cons a t =>
    have ha : a = id := by simpa using h
    subst ha
    show a ∈ x :: a :: t.take 998
    exact List.mem_cons_of_mem _ (List.mem_cons_self _ _)

theorem head_mem_eraseCons (l : List String) (x id : String) (h : l.head? = some id) :
    id ∈ x :: l.erase x := by
  by_cases hx : x = id
  · simp [hx]
  · cases l with
    | nil => simp at h
    | cons a t =>
      have ha : a = id := by simpa using h
      subst ha
      rw [List.erase_cons]
      rw [if_neg (by simpa using fun hh => hx hh.symm)]
      exact List.mem_cons_of_mem _ (List.mem_cons_self _ _)

theorem handleEvent_zero (env : Env) (e : Event) (s : State) :
    handleEvent env 0 e s = (none, s) := rfl

theorem generateSetEvents_depth0 (env : Env) (e : Event) (s : State) :
    generateSetEvents env (handleEvent env 0) e s = (none, s) := by
  unfold generateSetEvents
  simp [handleEvent]

theorem handleEvent_disabled_eq (env : Env) (fuel : Nat) (e : Event) (s : State)
    (h1 : e.created_at < 2147483647) (h2 : e.kind < 2147483647)
    (h3 : env.verify e = true)
    (h4 : e.id ∉ s.encounters)
    (h5 : existsInDB e s.events = false)
    (h6 : e.kind ≠ 24133)
    (h7 : env.policy e = PolicyResult.accept)
    (h8 : "disabled" ∈ getTagSet ((env.userTags e.pubkey).getD []) "n") :
    handleEvent env (fuel + 1) e s =
      (some ⟨ErrKind.blocked, "user is disabled"⟩,
        { s with encounters := (e.id :: s.encounters).take 1000,
                 policyCalls := s.policyCalls ++ [e.id] }) := by
  unfold handleEvent
  rw [if_neg (by omega), if_neg (by omega), if_neg (by simp [h3])]
  simp only [encounterEvent, if_neg h4, h5]
  rw [if_neg (show ¬ (false = true) by simp)]
  rw [if_pos h6]
  simp only [policyFilter, h7]
  rw [if_pos h8]
  rw [if_neg (show ¬ (false = true) by simp)]

theorem handleEvent_disabled24133_eq (env : Env) (fuel : Nat) (e : Event) (s : State)
    (h1 : e.created_at < 2147483647) (h2 : e.kind < 2147483647)
    (h3 : env.verify e = true)
    (h4 : e.id ∉ s.encounters)
    (h5 : existsInDB e s.events = false)
    (h6 : e.kind = 24133)
    (h8 : "disabled" ∈ getTagSet ((env.userTags e.pubkey).getD []) "n") :
    handleEvent env (fuel + 1) e s =
      (some ⟨ErrKind.blocked, "user is disabled"⟩,
        { s with encounters := (e.id :: s.encounters).take 1000 }) := by
  unfold handleEvent
  rw [if_neg (by omega), if_neg (by omega), if_neg (by simp [h3])]
  simp only [encounterEvent, if_neg h4, h5]
  rw [if_neg (show ¬ (false = true) by simp)]
  rw [if_neg (show ¬ (e.kind ≠ 24133) from fun hh => hh h6)]
  rw [if_pos h8]
  rw [if_neg (show ¬ (false = true) by simp)]

end Pipeline

namespace Pipeline

theorem mem_of_head? {α : Type} (l : List α) (id : α) (h : l.head? = some id) : id ∈ l := by
  cases l with
  | nil => simp at h
  | cons a t =>
    have ha : a = id := by simpa using h
    subst ha
    exact List.mem_cons_self _ _

theorem handleEvent_guard1 (env : Env) (fuel : Nat) (e : Event) (s : State)
    (h : 2147483647 ≤ e.created_at) :
    handleEvent env (fuel + 1) e s =
      (some ⟨ErrKind.blocked, "event too far in the future"⟩, s) := by
  unfold handleEvent
  rw [if_pos h]

theorem handleEvent_guard2 (env : Env) (fuel : Nat) (e : Event) (s : State)
    (h1 : e.created_at < 2147483647) (h : 2147483647 ≤ e.kind) :
    handleEvent env (fuel + 1) e s =
      (some ⟨ErrKind.blocked, "event kind too large"⟩, s) := by
  unfold handleEvent
  rw [if_neg (by omega), if_pos h]

theorem handleEvent_noverify (env : Env) (fuel : Nat) (e : Event) (s : State)
    (h1 : e.created_at < 2147483647) (h2 : e.kind < 2147483647)
    (h : env.verify e = false) :
    handleEvent env (fuel + 1) e s = (none, s) := by
  unfold handleEvent
  rw [if_neg (by omega), if_neg (by omega)]
  simp [h]

theorem storeEvent_encounters (env : Env) (e : Event) (s : State) :
    (storeEvent env e s).2.encounters = s.encounters := (storeEvent_components env e s).1

theorem handleZaps_encounters (env : Env) (e : Event) (s : State) :
    (handleZaps env e s).encounters = s.encounters := (handleZaps_components env e s).1

theorem handleAuthorSearch_encounters (env : Env) (e : Event) (s : State) :
    (handleAuthorSearch env e s).encounters = s.encounters :=
  (handleAuthorSearch_components env e s).1

theorem parseMetadata_encounters (env : Env) (e : Event) (s : State) :
    (parseMetadata env e s).encounters = s.encounters := (parseMetadata_components env e s).1

theorem streamOut_encounters (env : Env) (e : Event) (s : State) :
    (streamOut env e s).encounters = s.encounters := (streamOut_components env e s).1

theorem handleEvent_one_mem (env : Env) (ev : Event) (s : State) (id : String)
    (hid : s.encounters.head? = some id) :
    id ∈ (handleEvent env 1 ev s).2.encounters := by
  rw [show (1 : Nat) = 0 + 1 from rfl]
  by_cases h1 : 2147483647 ≤ ev.created_at
  · rw [handleEvent_guard1 env 0 ev s h1]
    exact mem_of_head? _ _ hid
  by_cases h2 : 2147483647 ≤ ev.kind
  · rw [handleEvent_guard2 env 0 ev s (by omega) h2]
    exact mem_of_head? _ _ hid
  by_cases hv : env.verify ev
  case neg =>
    rw [handleEvent_noverify env 0 ev s (by omega) (by omega) (by simpa using hv)]
    exact mem_of_head? _ _ hid
  case pos =>
  by_cases h4 : ev.id ∈ s.encounters
  · rw [handleEvent_hit_cache env 0 ev s (by omega) (by omega) hv h4]
    exact head_mem_eraseCons _ _ _ hid
  by_cases h5 : existsInDB ev s.events
  · rw [handleEvent_hit_db env 0 ev s (by omega) (by omega) hv h4 h5]
    exact head_mem_take2 _ _ _ hid
  have h5f : existsInDB ev s.events = false := by simpa using h5
  by_cases h8 : "disabled" ∈ getTagSet ((env.userTags ev.pubkey).getD []) "n"
  · by_cases h6 : ev.kind = 24133
    · rw [handleEvent_disabled24133_eq env 0 ev s (by omega) (by omega) hv h4 h5f h6 h8]
      exact head_mem_take2 _ _ _ hid
    · cases hp : env.policy ev with
      | accept =>
        rw [handleEvent_disabled_eq env 0 ev s (by omega) (by omega) hv h4 h5f h6 hp h8]
        exact head_mem_take2 _ _ _ hid
      | reject m =>
        rw [handleEvent_policy_stop env 0 ev s ⟨ErrKind.blocked, m⟩ (by omega) (by omega) hv h4 h5f h6
          (by simp [policyFilter, hp])]
        exact head_mem_take2 _ _ _ hid
      | fault =>
        rw [handleEvent_policy_stop env 0 ev s ⟨ErrKind.blocked, "policy error"⟩
          (by omega) (by omega) hv h4 h5f h6 (by simp [policyFilter, hp])]
        exact head_mem_take2 _ _ _ hid
  · by_cases h6 : ev.kind = 24133
    · rw [handleEvent_run24133 env 0 ev s (by omega) (by omega) hv h4 h5f h6 h8]
      simp only [streamOut_encounters, generateSetEvents_depth0, parseMetadata_encounters,
        handleAuthorSearch_encounters, handleZaps_encounters, storeEvent_encounters]
      exact head_mem_take2 _ _ _ hid
    · cases hp : env.policy ev with
      | accept =>
        rw [handleEvent_run env 0 ev s (by omega) (by omega) hv h4 h5f h6 hp h8]
        simp only [streamOut_encounters, generateSetEvents_depth0, parseMetadata_encounters,
          handleAuthorSearch_encounters, handleZaps_encounters, storeEvent_encounters]
        exact head_mem_take2 _ _ _ hid
      | reject m =>
        rw [handleEvent_policy_stop env 0 ev s ⟨ErrKind.blocked, m⟩ (by omega) (by omega) hv h4 h5f h6
          (by simp [policyFilter, hp])]
        exact head_mem_take2 _ _ _ hid
      | fault =>
        rw [handleEvent_policy_stop env 0 ev s ⟨ErrKind.blocked, "policy error"⟩
          (by omega) (by omega) hv h4 h5f h6 (by simp [policyFilter, hp])]
        exact head_mem_take2 _ _ _ hid

theorem generateSetEvents_mem1 (env : Env) (e : Event) (s : State) (id : String)
    (hid : s.encounters.head? = some id) :
    id ∈ (generateSetEvents env (handleEvent env 1) e s).2.encounters := by
  unfold generateSetEvents
  by_cases hc1 : e.kind = 1984 ∧ tagsAdmin env e = true
  · have hc2 : ¬ (e.kind = 3036 ∧ tagsAdmin env e = true) := by
      rintro ⟨h3036, _⟩
      rw [hc1.1] at h3036
      omega
    rw [if_pos hc1]
    simp only [if_neg hc2]
    exact handleEvent_one_mem env _ _ id hid
  · rw [if_neg hc1]
    show id ∈ ((if e.kind = 3036 ∧ tagsAdmin env e = true
        then handleEvent env 1 (requestRelEvent env e) s else (none, s)).2).encounters
    by_cases hc2 : e.kind = 3036 ∧ tagsAdmin env e = true
    · rw [if_pos hc2]
      exact handleEvent_one_mem env _ _ id hid
    · rw [if_neg hc2]
      exact mem_of_head? _ _ hid

/-- After a full pipeline run under the guards and a successful verification,
the event id is in the dedup cache. -/
theorem process_mem_encounters (env : Env) (e : Event) (s : State)
    (h1 : e.created_at < 2147483647) (h2 : e.kind < 2147483647)
    (h3 : env.verify e = true) :
    e.id ∈ (process env e s).2.encounters := by
  rw [show process env e s = handleEvent env (1 + 1) e s from rfl]
  by_cases h4 : e.id ∈ s.encounters
  · rw [handleEvent_hit_cache env 1 e s h1 h2 h3 h4]
    exact List.mem_cons_self _ _
  by_cases h5 : existsInDB e s.events
  · rw [handleEvent_hit_db env 1 e s h1 h2 h3 h4 h5]
    exact head_mem_take _ _ rfl
  have h5f : existsInDB e s.events = false := by simpa using h5
  by_cases h8 : "disabled" ∈ getTagSet ((env.userTags e.pubkey).getD []) "n"
  · by_cases h6 : e.kind = 24133
    · rw [handleEvent_disabled24133_eq env 1 e s h1 h2 h3 h4 h5f h6 h8]
      exact head_mem_take _ _ rfl
    · cases hp : env.policy e with
      | accept =>
        rw [handleEvent_disabled_eq env 1 e s h1 h2 h3 h4 h5f h6 hp h8]
        exact head_mem_take _ _ rfl
      | reject m =>
        rw [handleEvent_policy_stop env 1 e s ⟨ErrKind.blocked, m⟩ h1 h2 h3 h4 h5f h6
          (by simp [policyFilter, hp])]
        exact head_mem_take _ _ rfl
      | fault =>
        rw [handleEvent_policy_stop env 1 e s ⟨ErrKind.blocked, "policy error"⟩ h1 h2 h3 h4 h5f h6
          (by simp [policyFilter, hp])]
        exact head_mem_take _ _ rfl
  · by_cases h6 : e.kind = 24133
    · rw [handleEvent_run24133 env 1 e s h1 h2 h3 h4 h5f h6 h8]
      simp only [streamOut_encounters,
        generateSetEvents_skip env _ e _ (by omega) (by omega),
        parseMetadata_encounters, handleAuthorSearch_encounters, handleZaps_encounters,
        storeEvent_encounters]
      exact head_mem_take _ _ rfl
    · cases hp : env.policy e with
      | accept =>
        rw [handleEvent_run env 1 e s h1 h2 h3 h4 h5f h6 hp h8]
        simp only [streamOut_encounters]
        apply generateSetEvents_mem1
        simp only [parseMetadata_encounters, handleAuthorSearch_encounters,
          handleZaps_encounters, storeEvent_encounters]
        rfl
      | reject m =>
        rw [handleEvent_policy_stop env 1 e s ⟨ErrKind.blocked, m⟩ h1 h2 h3 h4 h5f h6
          (by simp [policyFilter, hp])]
        exact head_mem_take _ _ rfl
      | fault =>
        rw [handleEvent_policy_stop env 1 e s ⟨ErrKind.blocked, "policy error"⟩ h1 h2 h3 h4 h5f h6
          (by simp [policyFilter, hp])]
        exact head_mem_take _ _ rfl

end Pipeline

/-- C1 (amended): processing an event a second time after it has been
processed leaves the durable state, the fan-out log and the oracle-call trace
unchanged; the duplicate is detected by the dedup cache and the second
invocation returns silently with success — it does not report a duplicate
error (the duplicate early-returns of handleEvent produce no RelayError). -/
theorem c1_idempotent_silent (env : Pipeline.Env) (e : Event) (s0 : Pipeline.State)
    (h1 : e.created_at < 2147483647) (h2 : e.kind < 2147483647)
    (h3 : env.verify e = true)
    (hacc : (Pipeline.process env e s0).1 = none) :
    (Pipeline.process env e (Pipeline.process env e s0).2).1 = none ∧
    (Pipeline.process env e (Pipeline.process env e s0).2).2.events =
      (Pipeline.process env e s0).2.events ∧
    (Pipeline.process env e (Pipeline.process env e s0).2).2.tables =
      (Pipeline.process env e s0).2.tables ∧
    (Pipeline.process env e (Pipeline.process env e s0).2).2.pubsub =
      (Pipeline.process env e s0).2.pubsub ∧
    (Pipeline.process env e (Pipeline.process env e s0).2).2.event_zaps =
      (Pipeline.process env e s0).2.event_zaps ∧
    (Pipeline.process env e (Pipeline.process env e s0).2).2.pubkey_domains =
      (Pipeline.process env e s0).2.pubkey_domains ∧
    (Pipeline.process env e (Pipeline.process env e s0).2).2.author_search =
      (Pipeline.process env e s0).2.author_search ∧
    (Pipeline.process env e (Pipeline.process env e s0).2).2.policyCalls =
      (Pipeline.process env e s0).2.policyCalls := by
  have hmem := Pipeline.process_mem_encounters env e s0 h1 h2 h3
  rw [show Pipeline.process env e (Pipeline.process env e s0).2 =
      Pipeline.handleEvent env (1 + 1) e (Pipeline.process env e s0).2 from rfl]
  rw [Pipeline.handleEvent_hit_cache env 1 e _ h1 h2 h3 hmem]
  simp

/-- C1 counterexample: after a concrete event is accepted, the second
invocation returns silently with no error at all — in particular it does not
report a duplicate error as the claim states; it also stores nothing new. -/
theorem c1_counterexample :
    (Pipeline.process Pipeline.benignEnv ⟨"e1", "alice", 1, 995, [], "hi", "s"⟩
        Pipeline.emptyState).1 = none ∧
    (Pipeline.process Pipeline.benignEnv ⟨"e1", "alice", 1, 995, [], "hi", "s"⟩
      (Pipeline.process Pipeline.benignEnv ⟨"e1", "alice", 1, 995, [], "hi", "s"⟩
        Pipeline.emptyState).2).1 = none ∧
    (Pipeline.process Pipeline.benignEnv ⟨"e1", "alice", 1, 995, [], "hi", "s"⟩
      (Pipeline.process Pipeline.benignEnv ⟨"e1", "alice", 1, 995, [], "hi", "s"⟩
        Pipeline.emptyState).2).2.events =
      [⟨"e1", "alice", 1, 995, [], "hi", "s"⟩] := by
  refine ⟨rfl, rfl, rfl⟩

/-- C1 witness: the idempotence theorem applied at a concrete accepted
event. -/
theorem c1_witness :
    (Pipeline.process Pipeline.benignEnv ⟨"e1b", "bob", 1, 996, [], "hi", "s"⟩
      (Pipeline.process Pipeline.benignEnv ⟨"e1b", "bob", 1, 996, [], "hi", "s"⟩
        Pipeline.emptyState).2).1 = none ∧
    (Pipeline.process Pipeline.benignEnv ⟨"e1b", "bob", 1, 996, [], "hi", "s"⟩
      (Pipeline.process Pipeline.benignEnv ⟨"e1b", "bob", 1, 996, [], "hi", "s"⟩
        Pipeline.emptyState).2).2.events =
      (Pipeline.process Pipeline.benignEnv ⟨"e1b", "bob", 1, 996, [], "hi", "s"⟩
        Pipeline.emptyState).2.events :=
  have h := c1_idempotent_silent Pipeline.benignEnv ⟨"e1b", "bob", 1, 996, [], "hi", "s"⟩
    Pipeline.emptyState (by decide) (by decide) rfl rfl
  ⟨h.1, h.2.1⟩
